import Mathlib

/-!
# multiObjectTexture.cpp : grid walkability, arrow-key handlers and frame composition

A shallow embedding of the decision logic of `src/multiObjectTexture.cpp`:
`isWalkable`, `distanceTest`, the arrow-key handlers of the event loop in `main`,
and the map load and cell loop of `drawGeometry`.

Conventions of the embedding.

* The C++ `float` globals and parameters are rationals (`ℚ`): arithmetic and comparisons
  are exact, `floor`/`ceil` are `Int.floor`/`Int.ceil`, and a conversion `float → int`
  truncates toward zero (`truncToInt`).  Decimal literals denote their exact decimal value.
* The process-wide variables are the fields of `State`; every function that reads or
  writes a global takes and returns the state explicitly.
* An access outside the declared bounds of `map[5][5]`, `mapArray[26]` or
  `wallPositions[9]` has no defined result in C++; the embedding returns `none` there.
* The OpenGL calls are reduced to what they decide: each `glDrawArrays` becomes one
  `Draw` record (vertex range, translation of the model matrix, texture id last bound),
  labelled with the branch of `drawGeometry` that issued it.  Rotations, scalings and
  the diagnostic `cout` line of `isWalkable` are not represented.
-/

namespace MultiObjectTexture

/-! ## Data model -/

/-- The global `int map[5][5]`. -/
abbrev Grid := Fin 5 → Fin 5 → Int

/-- A `glm::vec3`. -/
abbrev Vec3 := ℚ × ℚ × ℚ

/-- The process-wide variables of the program that the modelled code reads or writes. -/
structure State where
  time_per_frame : ℚ
  whichKey : Int
  objx : ℚ
  objy : ℚ
  objz : ℚ
  colR : ℚ
  colG : ℚ
  colB : ℚ
  velocity : ℚ
  objWx : ℚ
  objWy : ℚ
  objWz : ℚ
  doory : ℚ
  doorz : ℚ
  wallPositions : Fin 9 → Vec3
  collideKey : Bool
  collideWall : Bool
  collideDoor : Bool
  fullscreen : Bool
  CameraPosZ : ℚ
  CameraDirZ : ℚ
  keyx : ℚ
  keyy : ℚ
  keyz : ℚ
  map : Grid
  quit : Bool

/-- The values of the globals at program start (initialisers of lines 79-128; globals without
an initialiser are zero-initialised). -/
def State.initial : State where
  time_per_frame := 0.5
  whichKey := 0
  objx := 0
  objy := 0
  objz := 0
  colR := 1
  colG := 1
  colB := 1
  velocity := 2.0
  objWx := 0
  objWy := 0
  objWz := 0
  doory := 0
  doorz := 0
  wallPositions := fun _ => (0, 0, 0)
  collideKey := false
  collideWall := false
  collideDoor := false
  fullscreen := false
  CameraPosZ := 4.5
  CameraDirZ := 0
  keyx := 0
  keyy := 0
  keyz := 0
  map := fun _ _ => 0
  quit := false

/-- The read `map[r][c]` for `int` indices: defined only inside the declared `5 x 5` array. -/
def mapAt (map : Grid) (r c : Int) : Option Int :=
  if h : 0 ≤ r ∧ r < 5 ∧ 0 ≤ c ∧ c < 5 then
    some (map ⟨r.toNat, by omega⟩ ⟨c.toNat, by omega⟩)
  else none

/-- The write `map[r][c] = v` (indices already known to be in range). -/
def mapSet (map : Grid) (r c : Fin 5) (v : Int) : Grid :=
  fun r' c' => if r' = r ∧ c' = c then v else map r' c'

/-- Conversion `float → int`: truncation toward zero. -/
def truncToInt (q : ℚ) : Int :=
  if 0 ≤ q then ⌊q⌋ else ⌈q⌉

/-! ## isWalkable (lines 806-828) -/

/-- The function `isWalkable(float x, float y)`; reads the globals `collideKey` and `map`. -/
def isWalkable (s : State) (x y : ℚ) : Option Bool :=
  if s.collideKey = true then some true
  else if x < -0.2 ∨ y < -4.5 ∨ x > 4.3 ∨ y > 0.2 then some false
  else
    match mapAt s.map ⌈y + 4⌉ ⌈x⌉ with
    | none => none
    | some c =>
      if c = 3 ∨ c = 2 then some false
      else
        match mapAt s.map ⌊y + 4⌋ ⌊x⌋ with
        | none => none
        | some f => if f = 3 ∨ f = 2 then some false else some true

/-! ## distanceTest (lines 543-549) -/

/-- The radicand of `distanceTest(int x1, int y1, int x2, int y2)`:
`pow(x2 - x1, 2) + pow(y2 - y1, 2)`. -/
def distanceTestSq (x1 y1 x2 y2 : Int) : Int :=
  (x2 - x1) ^ 2 + (y2 - y1) ^ 2

/-- The test `distanceTest(a, b, c, d) <= 0.1` at a call site whose arguments are `float`s:
each argument is converted to the `int` parameter, and `sqrt r <= 0.1` is decided on the
radicand as `r <= 0.1 ^ 2` (see `distanceTestLe_iff_sqrt`). -/
def distanceTestLe (a b c d : ℚ) : Bool :=
  decide ((distanceTestSq (truncToInt a) (truncToInt b) (truncToInt c) (truncToInt d) : ℚ)
    ≤ 0.1 ^ 2)

/-! ## Arrow-key handlers of the event loop (lines 402-482) -/

/-- The events of the loop `while (SDL_PollEvent(&windowEvent))` that the handlers tell apart.
`shift` is `windowEvent.key.keysym.mod & KMOD_SHIFT`; `keyUpC r g b` carries the three
values that `rand01()` returns; `other` is any event no handler changes the state for. -/
inductive Event where
  | sdlQuit
  | keyUpEscape
  | keyUpF
  | keyDownUp (shift : Bool)
  | keyDownDown (shift : Bool)
  | keyDownLeft
  | keyDownRight
  | keyUpC (r g b : ℚ)
  | other

/-- The step length `velocity * time_per_frame * 0.03` of lines 422-460. -/
def stepLen (s : State) : ℚ :=
  s.velocity * s.time_per_frame * 0.03

/-- Lines 422-426: `if (isWalkable(objy, objz += step)) objz += step; else objz -= 0.09;`.
The compound assignment in the argument list stores the candidate in `objz` before the call. -/
def moveUp (s : State) : Option State :=
  let s1 := { s with objz := s.objz + stepLen s }
  match isWalkable s1 s1.objy s1.objz with
  | none => none
  | some true => some { s1 with objz := s1.objz + stepLen s1 }
  | some false => some { s1 with objz := s1.objz - 0.09 }

/-- Lines 434-438: `if (isWalkable(objy, objz -= step)) objz -= step; else objz += 0.09;`. -/
def moveDown (s : State) : Option State :=
  let s1 := { s with objz := s.objz - stepLen s }
  match isWalkable s1 s1.objy s1.objz with
  | none => none
  | some true => some { s1 with objz := s1.objz - stepLen s1 }
  | some false => some { s1 with objz := s1.objz + 0.09 }

/-- Lines 446-450: `if (isWalkable(objy -= step, objz)) objy -= step; else objy += 0.09;`. -/
def moveLeft (s : State) : Option State :=
  let s1 := { s with objy := s.objy - stepLen s }
  match isWalkable s1 s1.objy s1.objz with
  | none => none
  | some true => some { s1 with objy := s1.objy - stepLen s1 }
  | some false => some { s1 with objy := s1.objy + 0.09 }

/-- Lines 459-463: `if (isWalkable(objy += step, objz)) objy += step; else objy -= 0.09;`. -/
def moveRight (s : State) : Option State :=
  let s1 := { s with objy := s.objy + stepLen s }
  match isWalkable s1 s1.objy s1.objz with
  | none => none
  | some true => some { s1 with objy := s1.objy + stepLen s1 }
  | some false => some { s1 with objy := s1.objy - 0.09 }

/-- The body of the event loop for one event (lines 404-481).  For the up key the walk is
the `else` branch of the shift test; for the down key the `else` branch is the camera
statement and the walk follows the `if`/`else` unconditionally. -/
def handleEvent (e : Event) (s : State) : Option State :=
  match e with
  | .sdlQuit => some { s with quit := true }
  | .keyUpEscape => some { s with quit := true }
  | .keyUpF => some { s with fullscreen := !s.fullscreen }
  | .keyDownUp shift =>
    if shift = true then some { s with objx := s.objx - 0.1 } else moveUp s
  | .keyDownDown shift =>
    moveDown (if shift = true then { s with objx := s.objx + 0.1 }
      else { s with CameraPosZ := s.CameraPosZ + s.CameraDirZ * 0.1 })
  | .keyDownLeft => moveLeft s
  | .keyDownRight => moveRight s
  | .keyUpC r g b => some { s with colR := r, colG := g, colB := b }
  | .other => some s

/-! ## drawGeometry (lines 551-805) -/

/-- The file `map2.txt` as the read loop sees it: one entry per line returned by
`std::getline`, holding the integers that `iss >> idx` extracts from that line. -/
abbrev MapFile := List (List Int)

/-- The local `int mapArray[26]`; it has no initialiser, so its content before the read
loop is a parameter of the model. -/
abbrev MapArray := Fin 26 → Int

/-- One execution of `mapArray[r] = idx; r++;` (lines 564-565). -/
def storeToken (acc : MapArray × Nat) (idx : Int) : Option (MapArray × Nat) :=
  if h : acc.2 < 26 then
    some (fun k => if k = ⟨acc.2, h⟩ then idx else acc.1 k, acc.2 + 1)
  else none

/-- The read loop of lines 558-568: `mapArray` and `r` after the last line
(`numLines` is the number of lines). -/
def readMapArray (junk : MapArray) (file : MapFile) : Option (MapArray × Nat) :=
  file.foldlM (fun acc line => line.foldlM storeToken acc) (junk, 0)

/-- One execution of `map[i][j] = mapArray[nextLine]; nextLine++;` (lines 573-574). -/
def fillCell (mapArray : MapArray) (i : Nat) (acc : Grid × Nat) (j : Nat) :
    Option (Grid × Nat) :=
  if h : i < 5 ∧ j < 5 ∧ acc.2 < 26 then
    some (mapSet acc.1 ⟨i, h.1⟩ ⟨j, h.2.1⟩ (mapArray ⟨acc.2, h.2.2⟩), acc.2 + 1)
  else none

/-- The fill loop of lines 570-577: `i` over `0 .. numLines-1`, `j` over `0 .. 4`,
`nextLine` starting at 2. -/
def fillMap (mapArray : MapArray) (numLines : Nat) (map : Grid) : Option (Grid × Nat) :=
  (List.range numLines).foldlM
    (fun acc i => (List.range 5).foldlM (fillCell mapArray i) acc) (map, 2)

/-- Which `glDrawArrays` call of the cell loop issued a draw. -/
inductive DrawKind where
  | floor
  | wall
  | door
  | player
  | key
  deriving DecidableEq, Repr

/-- The vertex range passed to `glDrawArrays`. -/
inductive Mesh where
  | model1
  | model2
  | square
  deriving DecidableEq, Repr

/-- One `glDrawArrays` call: the branch that issued it, its vertex range, the translation
of the model matrix and the value last passed to `glUniform1i(uniTexID, _)`. -/
structure Draw where
  kind : DrawKind
  mesh : Mesh
  pos : Vec3
  tex : Int
  deriving DecidableEq

/-- The state threaded through the cell loop: the globals, the local `t` and the draws
issued so far (oldest first). -/
structure Frame where
  st : State
  t : Nat
  out : List Draw

/-- Lines 683-711, the body of `if (map[i][j] == 2)`. -/
def drawWall (i j : Nat) (f : Frame) : Option Frame :=
  if h : f.t < 9 then
    let s := f.st
    let s1 := { s with objWx := -1, objWy := j, objWz := i }
    let s2 := { s1 with wallPositions :=
      fun k => if k = ⟨f.t, h⟩ then (s1.objWx, s1.objWy, s1.objWz) else s1.wallPositions k }
    some { st := s2, t := f.t + 1, out := f.out ++ [⟨.wall, .square, (-1, j, i), 1⟩] }
  else none

/-- Lines 713-728, the body of `if (map[i][j] == 3)`. -/
def drawDoor (i j : Nat) (f : Frame) : Frame :=
  let s := f.st
  let s1 := { s with doory := j, doorz := i }
  if s1.collideDoor = true ∧ s1.collideKey = true then { f with st := s1 }
  else { f with st := s1, out := f.out ++ [⟨.door, .square, (-1, j, i), s1.whichKey⟩] }

/-- Lines 730-760, the body of `if (map[i][j] == 4)`. -/
def drawPlayer (i j : Nat) (f : Frame) : Frame :=
  let s := f.st
  let out := f.out ++ [⟨.player, .model2, (-1, j + s.objy, i + s.objz), 1⟩]
  let s1 := if distanceTestLe (j + s.objy) (i + s.objz) s.keyy s.keyz = true
    then { s with collideKey := true } else s
  let s2 := if distanceTestLe (j + s1.objy) (i + s1.objz) s1.doory s1.doorz = true
    then { s1 with collideDoor := true } else s1
  { f with st := s2, out := out }

/-- Lines 768-799, the body of `if (map[i][j] == 5 || map[i][j] == 6)`; `c` is `map[i][j]`. -/
def drawKey (i j : Nat) (c : Int) (f : Frame) : Frame :=
  let s := f.st
  let s1 := if c = 5 then { s with whichKey := 2 } else s
  let s2 := if c = 6 then { s1 with whichKey := 3 } else s1
  let s3 := { s2 with keyx := -1, keyy := j, keyz := i }
  let out := if s3.collideKey = false
    then f.out ++ [⟨.key, .model1, (-1, j, i), s3.whichKey⟩] else f.out
  { f with st := { s3 with velocity := 2.0 }, out := out }

/-- Lines 666-677: the floor tile, drawn for every cell before its code is looked at. -/
def drawFloor (i j : Nat) (f : Frame) : Frame :=
  { f with out := f.out ++ [⟨.floor, .square, (-2, j, i), 0⟩] }

/-- The body of the inner loop (lines 663-800) for the cell `(i, j)`.  The four tests read
the same `map[i][j]`, which the body never writes, so it is read once. -/
def drawCell (i j : Nat) (f : Frame) : Option Frame :=
  let f0 := drawFloor i j f
  match mapAt f0.st.map i j with
  | none => none
  | some c =>
    match (if c = 2 then drawWall i j f0 else some f0) with
    | none => none
    | some f1 =>
      let f2 := if c = 3 then drawDoor i j f1 else f1
      let f3 := if c = 4 then drawPlayer i j f2 else f2
      some (if c = 5 ∨ c = 6 then drawKey i j c f3 else f3)

/-- The cell loop of lines 661-803: both loops run up to `n = mapArray[0]`. -/
def drawCells (n : Nat) (f : Frame) : Option Frame :=
  (List.range n).foldlM
    (fun f i => (List.range n).foldlM (fun f j => drawCell i j f) f) f

/-- One call of `drawGeometry`: read `map2.txt` into `mapArray`, fill `map`, run the cell
loop.  Returns the globals after the call and the draws issued, in order. -/
def drawGeometry (junk : MapArray) (file : MapFile) (s : State) :
    Option (State × List Draw) :=
  match readMapArray junk file with
  | none => none
  | some (mapArray, _) =>
    match fillMap mapArray file.length s.map with
    | none => none
    | some (map, _) =>
      match drawCells (mapArray 0).toNat ⟨{ s with map := map }, 0, []⟩ with
      | none => none
      | some f => some (f.st, f.out)

/-- One step of the run: an event taken from the queue, or a frame drawn with the current
content of `map2.txt` (and of the uninitialised `mapArray`). -/
inductive Step where
  | event (e : Event)
  | frame (junk : MapArray) (file : MapFile)

/-- The effect of one step on the globals. -/
def Step.run (st : Step) (s : State) : Option State :=
  match st with
  | .event e => handleEvent e s
  | .frame junk file => (drawGeometry junk file s).map Prod.fst

/-- The effect of a sequence of steps, oldest first. -/
def runSteps (steps : List Step) (s : State) : Option State :=
  steps.foldlM (fun s st => st.run s) s

/-! ## Closed forms of the loops of drawGeometry

The definitions below do not come from a source function of their own: each is the closed
form of a loop embedded above and is proved equal to it (`readMapArray_eq`, `fillMap_eq`,
`drawCells_eq`, `drawGeometry_eq`). -/

/-- The integers of `map2.txt` in reading order. -/
def tokens (file : MapFile) : List Int :=
  file.flatten

/-- The content of `mapArray` after the read loop: the `k`-th integer of the file where
the file has one, the initial content elsewhere. -/
def mapArrayAfter (junk : MapArray) (file : MapFile) : MapArray :=
  fun k => if k.val < (tokens file).length then (tokens file).getD k.val 0 else junk k

/-- The read `mapArray[k]` for a natural index (0 outside the array, which no closed form
below reaches). -/
def arrayAt (mapArray : MapArray) (k : Nat) : Int :=
  if h : k < 26 then mapArray ⟨k, h⟩ else 0

/-- The content of `map` after the fill loop over `numLines` rows: `map[r][c]` is
`mapArray[2 + 5 r + c]` for `r < numLines`, and keeps its content for the other rows. -/
def mapAfter (mapArray : MapArray) (numLines : Nat) (map : Grid) : Grid :=
  fun r c => if r.val < numLines then arrayAt mapArray (2 + 5 * r.val + c.val) else map r c

/-- The bound `mapArray[0]` of both cell loops, as a number of iterations. -/
def loopBound (junk : MapArray) (file : MapFile) : Nat :=
  (mapArrayAfter junk file 0).toNat

/-- The cells in the order the two nested loops of lines 661-662 visit them when both run
up to `n`: `(row, column)` pairs, rows outermost. -/
def cellOrder (n : Nat) : List (Nat × Nat) :=
  (List.range n).flatMap (fun i => (List.range n).map (fun j => (i, j)))

/-- The cell body of lines 663-800 for a cell whose code `map[i][j]` is `c`: the floor tile,
then the branch of the code. -/
def cellBody (c : Int) (i j : Nat) (f : Frame) : Option Frame :=
  if c = 2 then drawWall i j (drawFloor i j f)
  else if c = 3 then some (drawDoor i j (drawFloor i j f))
  else if c = 4 then some (drawPlayer i j (drawFloor i j f))
  else if c = 5 ∨ c = 6 then some (drawKey i j c (drawFloor i j f))
  else some (drawFloor i j f)

/-- The code the cell loop finds at cell `p = (row, column)` after the load: `mapArray[2 +
5 row + column]` for a row below the number of lines of the file, the content `map` had
before the call for the other rows. -/
def loadedCode (junk : MapArray) (file : MapFile) (old : Grid) (p : Nat × Nat) : Int :=
  if p.1 < file.length then arrayAt (mapArrayAfter junk file) (2 + 5 * p.1 + p.2)
  else (mapAt old p.1 p.2).getD 0

/-! ## Example inputs -/

/-- An all-zero initial content of `mapArray`. -/
def zeroArray : MapArray := fun _ => 0

/-- A `map2.txt` that declares `2 2`: spawn (code 4) at row 1, column 0 and a key of code 5
at row 1, column 1. -/
def fileSpawnKey : MapFile := [[2, 2], [0, 0, 0, 0, 0], [4, 5, 0, 0, 0]]

/-- A `map2.txt` that declares `2 2`: a door (code 3) at row 0, column 1, the spawn at row 1,
column 0 and a key of code 6 at row 1, column 1. -/
def fileDoorSpawnKey : MapFile := [[2, 2], [0, 3, 0, 0, 0], [4, 6, 0, 0, 0]]

/-- A map whose only wall is `map[4][1]`. -/
def wallAt41 : Grid := fun r c => if r = 4 ∧ c = 1 then 2 else 0

/-- The start state with the player offset `objy = 24/25`. -/
def startNearKey : State := { State.initial with objy := 24 / 25 }

/-- The start state with the player offset `objy = 9/10`. -/
def startTenthFromKey : State := { State.initial with objy := 9 / 10 }

/-- The start state over the map `wallAt41`. -/
def startAtWall : State := { State.initial with map := wallAt41 }

/-- The start state with both flags already set. -/
def startBothFlags : State := { State.initial with collideKey := true, collideDoor := true }

/-- A `map2.txt` that declares `1 1` and lists the single cell 4 (spawn). -/
def fileSpawnOnly : MapFile := [[1, 1], [4]]

/-- A `map2.txt` that declares `3 3` and lists 8 cell integers. -/
def fileShort : MapFile := [[3, 3], [0, 2, 0], [0, 4, 0], [5, 0]]

/-- A `map2.txt` that declares `1 2` and lists the cells 4 (spawn) and 5 (key). -/
def fileOneByTwo : MapFile := [[1, 2], [4, 5]]

/-- A `map2.txt` that declares `2 2` and lists the rows `0 4` and `5 0`. -/
def fileTwoByTwo : MapFile := [[2, 2], [0, 4], [5, 0]]

/-! ## Auxiliary facts -/

theorem mapAt_of_inside (map : Grid) (r c : Int) (h : 0 ≤ r ∧ r < 5 ∧ 0 ≤ c ∧ c < 5) :
    mapAt map r c = some (map ⟨r.toNat, by omega⟩ ⟨c.toNat, by omega⟩) := by
  unfold mapAt
  rw [dif_pos h]

theorem mapAt_of_outside (map : Grid) (r c : Int) (h : ¬ (0 ≤ r ∧ r < 5 ∧ 0 ≤ c ∧ c < 5)) :
    mapAt map r c = none := by
  unfold mapAt
  rw [dif_neg h]

/-- Inside the playable bound and without the key, `isWalkable` is decided by the two
sampled cells. -/
theorem isWalkable_inside (s : State) (x y : ℚ) (hk : s.collideKey = false)
    (hx : -0.2 ≤ x ∧ x ≤ 4.3) (hy : -4.5 ≤ y ∧ y ≤ 0.2) :
    isWalkable s x y =
      match mapAt s.map ⌈y + 4⌉ ⌈x⌉ with
      | none => none
      | some c =>
        if c = 3 ∨ c = 2 then some false
        else
          match mapAt s.map ⌊y + 4⌋ ⌊x⌋ with
          | none => none
          | some f => if f = 3 ∨ f = 2 then some false else some true := by
  have hb : ¬ (x < -0.2 ∨ y < -4.5 ∨ x > 4.3 ∨ y > 0.2) := by
    rintro (h | h | h | h)
    · exact absurd hx.1 (not_le.mpr h)
    · exact absurd hy.1 (not_le.mpr h)
    · exact absurd hx.2 (not_le.mpr h)
    · exact absurd hy.2 (not_le.mpr h)
  unfold isWalkable
  rw [if_neg (by simp [hk]), if_neg hb]

/-- The squared comparison of `distanceTestLe` is the comparison `sqrt r <= 0.1` of the
source, read over the reals. -/
theorem distanceTestLe_iff_sqrt (a b c d : ℚ) :
    distanceTestLe a b c d = true ↔
      Real.sqrt ((distanceTestSq (truncToInt a) (truncToInt b) (truncToInt c)
        (truncToInt d) : ℤ) : ℝ) ≤ 0.1 := by
  unfold distanceTestLe
  rw [decide_eq_true_iff, Real.sqrt_le_iff]
  constructor
  · intro h
    refine ⟨by norm_num, ?_⟩
    have h2 : (((distanceTestSq (truncToInt a) (truncToInt b) (truncToInt c)
        (truncToInt d) : ℤ) : ℚ) : ℝ) ≤ ((0.1 ^ 2 : ℚ) : ℝ) := by
      exact_mod_cast h
    push_cast at h2
    exact h2
  · rintro ⟨_, h⟩
    have h2 : (((distanceTestSq (truncToInt a) (truncToInt b) (truncToInt c)
        (truncToInt d) : ℤ) : ℚ) : ℝ) ≤ ((0.1 ^ 2 : ℚ) : ℝ) := by
      push_cast
      exact h
    exact_mod_cast h2

/-- A property kept by every defined step of a loop is kept by the whole loop. -/
theorem foldlM_option_preserves {α β : Type} (I : β → Prop) (f : β → α → Option β)
    (hf : ∀ b a b', I b → f b a = some b' → I b') :
    ∀ (l : List α) (b b' : β), I b → l.foldlM f b = some b' → I b' := by
  intro l
  induction l with
  | nil =>
    intro b b' hb h
    simp only [List.foldlM_nil] at h
    cases h
    exact hb
  | cons a l ih =>
    intro b b' hb h
    rw [List.foldlM_cons] at h
    cases hfa : f b a with
    | none => rw [hfa] at h; cases h
    | some b1 =>
      rw [hfa] at h
      exact ih b1 b' (hf b a b1 hb hfa) h

/-- The wall branch leaves the flags and the map alone and issues one wall draw. -/
theorem drawWall_spec (i j : Nat) (f f' : Frame) (h : drawWall i j f = some f') :
    f'.st.collideKey = f.st.collideKey ∧ f'.st.collideDoor = f.st.collideDoor ∧
      f'.st.map = f.st.map ∧
      f'.out = f.out ++ [⟨.wall, .square, (-1, j, i), 1⟩] := by
  unfold drawWall at h
  split at h
  · cases h
    exact ⟨rfl, rfl, rfl, rfl⟩
  · cases h

/-- The door branch records the cell and issues the door draw unless both flags are set. -/
theorem drawDoor_spec (i j : Nat) (f : Frame) :
    (drawDoor i j f).st.collideKey = f.st.collideKey ∧
      (drawDoor i j f).st.collideDoor = f.st.collideDoor ∧
      (drawDoor i j f).st.map = f.st.map ∧
      (drawDoor i j f).st.doory = j ∧ (drawDoor i j f).st.doorz = i ∧
      (drawDoor i j f).out = f.out ++
        (if f.st.collideDoor = true ∧ f.st.collideKey = true then []
          else [⟨.door, .square, (-1, j, i), f.st.whichKey⟩]) := by
  unfold drawDoor
  by_cases hb : f.st.collideDoor = true ∧ f.st.collideKey = true
  · simp [hb]
  · simp [hb]

/-- The spawn branch issues the player draw and can only raise the two flags. -/
theorem drawPlayer_spec (i j : Nat) (f : Frame) :
    ((drawPlayer i j f).st.collideKey = true ↔ (f.st.collideKey = true ∨
        distanceTestLe (j + f.st.objy) (i + f.st.objz) f.st.keyy f.st.keyz = true)) ∧
      ((drawPlayer i j f).st.collideDoor = true ↔ (f.st.collideDoor = true ∨
        distanceTestLe (j + f.st.objy) (i + f.st.objz) f.st.doory f.st.doorz = true)) ∧
      (drawPlayer i j f).st.map = f.st.map ∧
      (drawPlayer i j f).out =
        f.out ++ [⟨.player, .model2, (-1, j + f.st.objy, i + f.st.objz), 1⟩] := by
  unfold drawPlayer
  by_cases h1 : distanceTestLe (j + f.st.objy) (i + f.st.objz) f.st.keyy f.st.keyz = true <;>
  by_cases h2 : distanceTestLe (j + f.st.objy) (i + f.st.objz) f.st.doory f.st.doorz = true <;>
  simp [h1, h2]

/-- The key branch sets `whichKey`, records the cell and issues the key draw while
`collideKey` is false. -/
theorem drawKey_spec (i j : Nat) (c : Int) (f : Frame) (hc : c = 5 ∨ c = 6) :
    (drawKey i j c f).st.collideKey = f.st.collideKey ∧
      (drawKey i j c f).st.collideDoor = f.st.collideDoor ∧
      (drawKey i j c f).st.map = f.st.map ∧
      (drawKey i j c f).st.whichKey = (if c = 5 then 2 else 3) ∧
      (drawKey i j c f).st.keyy = j ∧ (drawKey i j c f).st.keyz = i ∧
      (drawKey i j c f).out = f.out ++
        (if f.st.collideKey = false
          then [⟨.key, .model1, (-1, j, i), if c = 5 then 2 else 3⟩] else []) := by
  unfold drawKey
  rcases hc with rfl | rfl <;> by_cases hk : f.st.collideKey = false <;> simp [hk]

/-- The cell body, by the code of the cell. -/
theorem drawCell_of_code (i j : Nat) (f : Frame) (c : Int)
    (hc : mapAt f.st.map i j = some c) :
    drawCell i j f =
      if c = 2 then drawWall i j (drawFloor i j f)
      else if c = 3 then some (drawDoor i j (drawFloor i j f))
      else if c = 4 then some (drawPlayer i j (drawFloor i j f))
      else if c = 5 ∨ c = 6 then some (drawKey i j c (drawFloor i j f))
      else some (drawFloor i j f) := by
  have hc0 : mapAt (drawFloor i j f).st.map i j = some c := hc
  unfold drawCell
  simp only [hc0]
  by_cases h2 : c = 2
  · subst h2
    cases hw : drawWall i j (drawFloor i j f) with
    | none => simp
    | some f1 => simp
  · by_cases h3 : c = 3
    · subst h3
      simp
    · by_cases h4 : c = 4
      · subst h4
        simp
      · by_cases h56 : c = 5 ∨ c = 6
        · have h5 : c = 5 ∨ c = 6 := h56
          simp [h2, h3, h4, h56]
        · simp [h2, h3, h4, h56]

/-- The cell body has no defined result when `map[i][j]` lies outside the array. -/
theorem drawCell_of_outside (i j : Nat) (f : Frame) (hc : mapAt f.st.map i j = none) :
    drawCell i j f = none := by
  have hc0 : mapAt (drawFloor i j f).st.map i j = none := hc
  unfold drawCell
  simp only [hc0]

/-- What one defined cell body can do to the flags, the map and the list of draws. -/
theorem drawCell_sound (i j : Nat) (f f' : Frame) (h : drawCell i j f = some f') :
    (f.st.collideKey = true → f'.st.collideKey = true) ∧
    (f.st.collideDoor = true → f'.st.collideDoor = true) ∧
    f'.st.map = f.st.map ∧
    (∀ d ∈ f'.out, d ∈ f.out ∨ d.kind = .floor ∨ d.kind = .wall ∨ d.kind = .player ∨
      (d.kind = .door ∧ ¬ (f.st.collideDoor = true ∧ f.st.collideKey = true)) ∨
      (d.kind = .key ∧ f.st.collideKey = false)) := by
  cases hm : mapAt f.st.map i j with
  | none => rw [drawCell_of_outside i j f hm] at h; cases h
  | some c =>
    rw [drawCell_of_code i j f c hm] at h
    have hfl : ∀ d ∈ (drawFloor i j f).out, d ∈ f.out ∨ d.kind = .floor := by
      intro d hd
      simp only [drawFloor, List.mem_append, List.mem_singleton] at hd
      rcases hd with hd | hd
      · exact Or.inl hd
      · exact Or.inr (by rw [hd])
    split_ifs at h with h2 h3 h4 h56
    · obtain ⟨e1, e2, e3, e4⟩ := drawWall_spec i j _ f' h
      refine ⟨fun hk => by rw [e1]; exact hk, fun hd => by rw [e2]; exact hd, e3, ?_⟩
      intro d hd
      rw [e4, List.mem_append, List.mem_singleton] at hd
      rcases hd with hd | hd
      · rcases hfl d hd with h' | h'
        · exact Or.inl h'
        · exact Or.inr (Or.inl h')
      · exact Or.inr (Or.inr (Or.inl (by rw [hd])))
    · cases h
      obtain ⟨e1, e2, e3, _, _, e4⟩ := drawDoor_spec i j (drawFloor i j f)
      refine ⟨fun hk => by rw [e1]; exact hk, fun hd => by rw [e2]; exact hd, e3, ?_⟩
      intro d hd
      rw [e4, List.mem_append] at hd
      rcases hd with hd | hd
      · rcases hfl d hd with h' | h'
        · exact Or.inl h'
        · exact Or.inr (Or.inl h')
      · by_cases hb : f.st.collideDoor = true ∧ f.st.collideKey = true
        · have hb' : (drawFloor i j f).st.collideDoor = true ∧
              (drawFloor i j f).st.collideKey = true := hb
          rw [if_pos hb'] at hd
          cases hd
        · have hb' : ¬ ((drawFloor i j f).st.collideDoor = true ∧
              (drawFloor i j f).st.collideKey = true) := hb
          rw [if_neg hb', List.mem_singleton] at hd
          exact Or.inr (Or.inr (Or.inr (Or.inr (Or.inl ⟨by rw [hd], hb⟩))))
    · cases h
      obtain ⟨e1, e2, e3, e4⟩ := drawPlayer_spec i j (drawFloor i j f)
      refine ⟨fun hk => e1.mpr (Or.inl hk), fun hd => e2.mpr (Or.inl hd), e3, ?_⟩
      intro d hd
      rw [e4, List.mem_append, List.mem_singleton] at hd
      rcases hd with hd | hd
      · rcases hfl d hd with h' | h'
        · exact Or.inl h'
        · exact Or.inr (Or.inl h')
      · exact Or.inr (Or.inr (Or.inr (Or.inl (by rw [hd]))))
    · cases h
      obtain ⟨e1, e2, e3, _, _, _, e4⟩ := drawKey_spec i j c (drawFloor i j f) h56
      refine ⟨fun hk => by rw [e1]; exact hk, fun hd => by rw [e2]; exact hd, e3, ?_⟩
      intro d hd
      rw [e4, List.mem_append] at hd
      rcases hd with hd | hd
      · rcases hfl d hd with h' | h'
        · exact Or.inl h'
        · exact Or.inr (Or.inl h')
      · by_cases hb : f.st.collideKey = false
        · have hb' : (drawFloor i j f).st.collideKey = false := hb
          rw [if_pos hb', List.mem_singleton] at hd
          exact Or.inr (Or.inr (Or.inr (Or.inr (Or.inr ⟨by rw [hd], hb⟩))))
        · have hb' : ¬ (drawFloor i j f).st.collideKey = false := hb
          rw [if_neg hb'] at hd
          cases hd
    · cases h
      exact ⟨fun hk => hk, fun hd => hd, rfl, fun d hd => by
        rcases hfl d hd with h' | h'
        · exact Or.inl h'
        · exact Or.inr (Or.inl h')⟩

/-- A property of the frame kept by every defined cell body is kept by the cell loop. -/
theorem drawCells_preserves (I : Frame → Prop)
    (hI : ∀ i j f f', I f → drawCell i j f = some f' → I f')
    (n : Nat) (f f' : Frame) (hf : I f) (h : drawCells n f = some f') : I f' := by
  unfold drawCells at h
  refine foldlM_option_preserves I _ ?_ (List.range n) f f' hf h
  intro b i b' hb hrow
  exact foldlM_option_preserves I _ (fun b1 j b2 h1 h2 => hI i j b1 b2 h1 h2)
    (List.range n) b b' hb hrow

/-- A defined call of `drawGeometry` is a defined cell loop started on the freshly filled
map with `t = 0` and no draw issued. -/
theorem drawGeometry_cases (junk : MapArray) (file : MapFile) (s s' : State)
    (out : List Draw) (h : drawGeometry junk file s = some (s', out)) :
    ∃ (map : Grid) (n : Nat) (f : Frame),
      drawCells n ⟨{ s with map := map }, 0, []⟩ = some f ∧ f.st = s' ∧ f.out = out := by
  unfold drawGeometry at h
  split at h
  · cases h
  · rename_i mapArray r hr
    split at h
    · cases h
    · rename_i map nl hfill
      split at h
      · cases h
      · rename_i f hf
        simp only [Option.some.injEq, Prod.mk.injEq] at h
        exact ⟨map, _, f, hf, h.1, h.2⟩

/-- No event handler writes `collideKey` or `collideDoor`. -/
theorem handleEvent_flags (e : Event) (s s' : State) (h : handleEvent e s = some s') :
    s'.collideKey = s.collideKey ∧ s'.collideDoor = s.collideDoor := by
  cases e with
  | sdlQuit => cases h; exact ⟨rfl, rfl⟩
  | keyUpEscape => cases h; exact ⟨rfl, rfl⟩
  | keyUpF => cases h; exact ⟨rfl, rfl⟩
  | keyDownUp shift =>
    unfold handleEvent at h
    simp only at h
    split at h
    · cases h; exact ⟨rfl, rfl⟩
    · unfold moveUp at h
      simp only at h
      split at h
      · cases h
      · cases h; exact ⟨rfl, rfl⟩
      · cases h; exact ⟨rfl, rfl⟩
  | keyDownDown shift =>
    unfold handleEvent at h
    simp only at h
    unfold moveDown at h
    simp only at h
    split at h
    · cases h
    · cases h
      cases shift <;> exact ⟨rfl, rfl⟩
    · cases h
      cases shift <;> exact ⟨rfl, rfl⟩
  | keyDownLeft =>
    unfold handleEvent at h
    simp only at h
    unfold moveLeft at h
    simp only at h
    split at h
    · cases h
    · cases h; exact ⟨rfl, rfl⟩
    · cases h; exact ⟨rfl, rfl⟩
  | keyDownRight =>
    unfold handleEvent at h
    simp only at h
    unfold moveRight at h
    simp only at h
    split at h
    · cases h
    · cases h; exact ⟨rfl, rfl⟩
    · cases h; exact ⟨rfl, rfl⟩
  | keyUpC r g b => cases h; exact ⟨rfl, rfl⟩
  | other => cases h; exact ⟨rfl, rfl⟩

/-- A defined frame can only raise the two flags. -/
theorem drawGeometry_flags (junk : MapArray) (file : MapFile) (s s' : State)
    (out : List Draw) (h : drawGeometry junk file s = some (s', out)) :
    (s.collideKey = true → s'.collideKey = true) ∧
      (s.collideDoor = true → s'.collideDoor = true) := by
  obtain ⟨map, n, f, hf, hs, _⟩ := drawGeometry_cases junk file s s' out h
  subst hs
  exact drawCells_preserves
    (fun g => (s.collideKey = true → g.st.collideKey = true) ∧
      (s.collideDoor = true → g.st.collideDoor = true))
    (fun i j g g' hg hcell =>
      ⟨fun hk => (drawCell_sound i j g g' hcell).1 (hg.1 hk),
        fun hd => (drawCell_sound i j g g' hcell).2.1 (hg.2 hd)⟩)
    n _ f ⟨fun hk => hk, fun hd => hd⟩ hf

/-- A defined step can only raise the two flags. -/
theorem Step.run_flags (st : Step) (s s' : State) (h : st.run s = some s') :
    (s.collideKey = true → s'.collideKey = true) ∧
      (s.collideDoor = true → s'.collideDoor = true) := by
  cases st with
  | event e =>
    obtain ⟨e1, e2⟩ := handleEvent_flags e s s' h
    exact ⟨fun hk => by rw [e1]; exact hk, fun hd => by rw [e2]; exact hd⟩
  | frame junk file =>
    unfold Step.run at h
    simp only at h
    cases hg : drawGeometry junk file s with
    | none => rw [hg] at h; cases h
    | some r =>
      rw [hg] at h
      cases h
      exact drawGeometry_flags junk file s r.1 r.2 hg

/-- A defined sequence of steps can only raise the two flags. -/
theorem runSteps_flags (steps : List Step) (s s' : State) (h : runSteps steps s = some s') :
    (s.collideKey = true → s'.collideKey = true) ∧
      (s.collideDoor = true → s'.collideDoor = true) := by
  unfold runSteps at h
  exact foldlM_option_preserves
    (fun (g : State) => (s.collideKey = true → g.collideKey = true) ∧
      (s.collideDoor = true → g.collideDoor = true))
    (fun (g : State) (st : Step) => st.run g)
    (fun g st g' hg hrun =>
      ⟨fun hk => (Step.run_flags st g g' hrun).1 (hg.1 hk),
        fun hd => (Step.run_flags st g g' hrun).2 (hg.2 hd)⟩)
    steps s s' ⟨fun hk => hk, fun hd => hd⟩ h

/-- A frame that starts with both flags set issues no door draw. -/
theorem drawGeometry_no_door (junk : MapArray) (file : MapFile) (s s' : State)
    (out : List Draw) (hd : s.collideDoor = true) (hk : s.collideKey = true)
    (h : drawGeometry junk file s = some (s', out)) :
    ∀ d ∈ out, d.kind ≠ .door := by
  obtain ⟨map, n, f, hf, _, ho⟩ := drawGeometry_cases junk file s s' out h
  subst ho
  refine (drawCells_preserves
    (fun g => g.st.collideDoor = true ∧ g.st.collideKey = true ∧
      ∀ d ∈ g.out, d.kind ≠ .door)
    ?_ n _ f ⟨hd, hk, fun d hmem => by cases hmem⟩ hf).2.2
  intro i j g g' hg hcell
  obtain ⟨c1, c2, _, c4⟩ := drawCell_sound i j g g' hcell
  refine ⟨c2 hg.1, c1 hg.2.1, ?_⟩
  intro d hmem
  rcases c4 d hmem with h' | h' | h' | h' | h' | h'
  · exact hg.2.2 d h'
  · rw [h']; decide
  · rw [h']; decide
  · rw [h']; decide
  · exact absurd ⟨hg.1, hg.2.1⟩ h'.2
  · rw [h'.1]; decide

/-- A frame that starts with `collideKey` set issues no key draw. -/
theorem drawGeometry_no_key (junk : MapArray) (file : MapFile) (s s' : State)
    (out : List Draw) (hk : s.collideKey = true)
    (h : drawGeometry junk file s = some (s', out)) :
    ∀ d ∈ out, d.kind ≠ .key := by
  obtain ⟨map, n, f, hf, _, ho⟩ := drawGeometry_cases junk file s s' out h
  subst ho
  refine (drawCells_preserves
    (fun g => g.st.collideKey = true ∧ ∀ d ∈ g.out, d.kind ≠ .key)
    ?_ n _ f ⟨hk, fun d hmem => by cases hmem⟩ hf).2
  intro i j g g' hg hcell
  obtain ⟨c1, _, _, c4⟩ := drawCell_sound i j g g' hcell
  refine ⟨c1 hg.1, ?_⟩
  intro d hmem
  rcases c4 d hmem with h' | h' | h' | h' | h' | h'
  · exact hg.2 d h'
  · rw [h']; decide
  · rw [h']; decide
  · rw [h']; decide
  · rw [h'.1]; decide
  · rw [hg.1] at h'
    exact absurd h'.2 (by decide)

/-- The radicand of `distanceTest` is zero exactly when the two integer points coincide. -/
theorem distanceTestSq_eq_zero_iff (x1 y1 x2 y2 : Int) :
    distanceTestSq x1 y1 x2 y2 = 0 ↔ x1 = x2 ∧ y1 = y2 := by
  unfold distanceTestSq
  constructor
  · intro h
    have h1 : 0 ≤ (x2 - x1) ^ 2 := sq_nonneg _
    have h2 : 0 ≤ (y2 - y1) ^ 2 := sq_nonneg _
    have e1 : (x2 - x1) ^ 2 = 0 := by omega
    have e2 : (y2 - y1) ^ 2 = 0 := by omega
    have d1 : x2 - x1 = 0 := pow_eq_zero_iff (two_ne_zero) |>.mp e1
    have d2 : y2 - y1 = 0 := pow_eq_zero_iff (two_ne_zero) |>.mp e2
    exact ⟨by omega, by omega⟩
  · rintro ⟨rfl, rfl⟩
    simp

/-- The radicand of `distanceTest` is a natural number. -/
theorem distanceTestSq_nonneg (x1 y1 x2 y2 : Int) : 0 ≤ distanceTestSq x1 y1 x2 y2 := by
  unfold distanceTestSq
  exact add_nonneg (sq_nonneg _) (sq_nonneg _)

/-- The comparison `distanceTest(...) <= 0.1` holds exactly when the truncated arguments
coincide. -/
theorem distanceTestLe_iff_trunc_eq (a b c d : ℚ) :
    distanceTestLe a b c d = true ↔
      truncToInt a = truncToInt c ∧ truncToInt b = truncToInt d := by
  unfold distanceTestLe
  rw [decide_eq_true_iff, ← distanceTestSq_eq_zero_iff]
  have h0 := distanceTestSq_nonneg (truncToInt a) (truncToInt b) (truncToInt c) (truncToInt d)
  generalize distanceTestSq (truncToInt a) (truncToInt b) (truncToInt c) (truncToInt d) = n
    at h0 ⊢
  constructor
  · intro h
    have h1 : (n : ℚ) < 1 := lt_of_le_of_lt h (by norm_num)
    have h2 : n < 1 := by exact_mod_cast h1
    omega
  · intro h
    subst h
    norm_num

/-- One store inside `mapArray[26]`. -/
theorem storeToken_of_lt (arr : MapArray) (r : Nat) (t : Int) (h : r < 26) :
    storeToken (arr, r) t = some (fun k => if k = ⟨r, h⟩ then t else arr k, r + 1) := by
  unfold storeToken
  rw [dif_pos h]

/-- One store past the end of `mapArray[26]`. -/
theorem storeToken_of_ge (arr : MapArray) (r : Nat) (t : Int) (h : ¬ r < 26) :
    storeToken (arr, r) t = none := by
  unfold storeToken
  rw [dif_neg h]

/-- The stores of one run of tokens: defined while `r` stays within `mapArray[26]`. -/
theorem foldlM_storeToken (toks : List Int) :
    ∀ (arr : MapArray) (r : Nat), r ≤ 26 →
      toks.foldlM storeToken (arr, r) =
        if r + toks.length ≤ 26 then
          some (fun k => if r ≤ k.val ∧ k.val < r + toks.length
            then toks.getD (k.val - r) 0 else arr k, r + toks.length)
        else none := by
  induction toks with
  | nil =>
    intro arr r hr
    rw [List.foldlM_nil, List.length_nil, Nat.add_zero, if_pos hr]
    have e : (fun k : Fin 26 => if r ≤ k.val ∧ k.val < r
        then ([] : List Int).getD (k.val - r) 0 else arr k) = arr := by
      funext k
      rw [if_neg (by omega)]
    rw [e]
    rfl
  | cons t ts ih =>
    intro arr r hr
    rw [List.foldlM_cons]
    by_cases h : r < 26
    · rw [storeToken_of_lt arr r t h]
      simp only [Option.bind_eq_bind, Option.some_bind, List.length_cons]
      rw [ih _ (r + 1) (by omega)]
      by_cases h2 : r + 1 + ts.length ≤ 26
      · have h3 : r + (ts.length + 1) ≤ 26 := by omega
        rw [if_pos h2, if_pos h3]
        congr 1
        refine Prod.ext ?_ (by simp only; omega)
        funext k
        simp only
        by_cases hk : k = ⟨r, h⟩
        · subst hk
          simp
        · have hk2 : k.val ≠ r := fun e => hk (Fin.ext e)
          by_cases hk3 : r + 1 ≤ k.val ∧ k.val < r + 1 + ts.length
          · have hk4 : r ≤ k.val ∧ k.val < r + (ts.length + 1) := by omega
            rw [if_pos hk3, if_pos hk4]
            have : k.val - r = (k.val - (r + 1)) + 1 := by omega
            rw [this, List.getD_cons_succ]
          · have hk4 : ¬ (r ≤ k.val ∧ k.val < r + (ts.length + 1)) := by omega
            rw [if_neg hk3, if_neg hk4, if_neg hk]
      · have h3 : ¬ r + (ts.length + 1) ≤ 26 := by omega
        rw [if_neg h2, if_neg h3]
    · have h3 : ¬ r + (ts.length + 1) ≤ 26 := by omega
      rw [storeToken_of_ge arr r t h]
      simp only [Option.bind_eq_bind, Option.none_bind, List.length_cons, if_neg h3]

/-- The read loop over the lines is the read loop over the integers of the file. -/
theorem foldlM_lines (file : MapFile) :
    ∀ (acc : MapArray × Nat),
      file.foldlM (fun acc line => line.foldlM storeToken acc) acc
        = (tokens file).foldlM storeToken acc := by
  induction file with
  | nil => intro acc; rfl
  | cons line rest ih =>
    intro acc
    unfold tokens
    rw [List.foldlM_cons, List.flatten_cons, List.foldlM_append]
    cases hl : line.foldlM storeToken acc with
    | none => rfl
    | some acc1 =>
      simp only [Option.bind_eq_bind, Option.some_bind]
      exact ih acc1

/-- The read loop in closed form: it is defined exactly when the file holds at most 26
integers, and then leaves `mapArrayAfter` and `r` = the number of integers. -/
theorem readMapArray_eq (junk : MapArray) (file : MapFile) :
    readMapArray junk file =
      if (tokens file).length ≤ 26 then
        some (mapArrayAfter junk file, (tokens file).length)
      else none := by
  unfold readMapArray
  rw [foldlM_lines, foldlM_storeToken (tokens file) junk 0 (by omega)]
  simp only [Nat.zero_add, Nat.zero_le, true_and, Nat.sub_zero]
  rfl

/-- One fill inside both arrays. -/
theorem fillCell_of_inside (arr : MapArray) (i j : Nat) (map : Grid) (nl : Nat)
    (hi : i < 5) (hj : j < 5) (hn : nl < 26) :
    fillCell arr i (map, nl) j = some (mapSet map ⟨i, hi⟩ ⟨j, hj⟩ (arrayAt arr nl), nl + 1) := by
  unfold fillCell arrayAt
  rw [dif_pos ⟨hi, hj, hn⟩, dif_pos hn]

/-- The inner fill loop for a row inside both arrays. -/
theorem foldlM_fillCell (arr : MapArray) (i : Nat) (map : Grid) (nl : Nat)
    (hi : i < 5) (hn : nl + 5 ≤ 26) :
    (List.range 5).foldlM (fillCell arr i) (map, nl) =
      some (fun r c => if r.val = i then arrayAt arr (nl + c.val) else map r c, nl + 5) := by
  have hr : List.range 5 = [0, 1, 2, 3, 4] := by decide
  rw [hr]
  simp only [List.foldlM_cons, List.foldlM_nil, Option.bind_eq_bind]
  rw [fillCell_of_inside arr i 0 map nl hi (by omega) (by omega), Option.some_bind,
    fillCell_of_inside arr i 1 _ (nl + 1) hi (by omega) (by omega), Option.some_bind,
    fillCell_of_inside arr i 2 _ (nl + 1 + 1) hi (by omega) (by omega), Option.some_bind,
    fillCell_of_inside arr i 3 _ (nl + 1 + 1 + 1) hi (by omega) (by omega), Option.some_bind,
    fillCell_of_inside arr i 4 _ (nl + 1 + 1 + 1 + 1) hi (by omega) (by omega),
    Option.some_bind]
  congr 1
  refine Prod.ext ?_ rfl
  funext r c
  simp only [mapSet]
  by_cases hri : r.val = i
  · have hr2 : r = ⟨i, hi⟩ := Fin.ext hri
    subst hr2
    fin_cases c <;> simp
  · have hr2 : r ≠ ⟨i, hi⟩ := fun e => hri (by rw [e])
    simp [hr2, hri]

/-- The inner fill loop for row 4 starts at `nextLine = 22` and leaves `mapArray[26]` at
its last column. -/
theorem foldlM_fillCell_row4 (arr : MapArray) (map : Grid) :
    (List.range 5).foldlM (fillCell arr 4) (map, 22) = none := by
  have hr : List.range 5 = [0, 1, 2, 3, 4] := by decide
  rw [hr]
  simp only [List.foldlM_cons, List.foldlM_nil, Option.bind_eq_bind]
  rw [fillCell_of_inside arr 4 0 map 22 (by omega) (by omega) (by omega), Option.some_bind,
    fillCell_of_inside arr 4 1 _ 23 (by omega) (by omega) (by omega), Option.some_bind,
    fillCell_of_inside arr 4 2 _ 24 (by omega) (by omega) (by omega), Option.some_bind,
    fillCell_of_inside arr 4 3 _ 25 (by omega) (by omega) (by omega), Option.some_bind]
  unfold fillCell
  rw [dif_neg (by omega)]
  rfl

/-- The fill loop in closed form: it is defined exactly when the file has at most 4 lines,
and then leaves `mapAfter` and `nextLine = 2 + 5 * numLines`. -/
theorem fillMap_eq (arr : MapArray) (map : Grid) (numLines : Nat) :
    fillMap arr numLines map =
      if numLines ≤ 4 then some (mapAfter arr numLines map, 2 + 5 * numLines) else none := by
  unfold fillMap
  induction numLines with
  | zero =>
    rw [List.range_zero, List.foldlM_nil, if_pos (by omega)]
    have e : mapAfter arr 0 map = map := by
      funext r c
      unfold mapAfter
      rw [if_neg (by omega)]
    rw [e]
    rfl
  | succ n ih =>
    rw [List.range_succ n, List.foldlM_append, ih]
    by_cases h4 : n ≤ 4
    · rw [if_pos h4]
      simp only [Option.bind_eq_bind, Option.some_bind, List.foldlM_cons, List.foldlM_nil]
      by_cases h3 : n + 1 ≤ 4
      · rw [if_pos h3, foldlM_fillCell arr n _ (2 + 5 * n) (by omega) (by omega)]
        simp only [Option.some_bind]
        congr 1
        refine Prod.ext ?_ (by simp only; omega)
        funext r c
        simp only [mapAfter]
        by_cases hr : r.val = n
        · rw [if_pos hr, if_pos (by omega), hr]
        · rw [if_neg hr]
          by_cases hr2 : r.val < n
          · rw [if_pos hr2, if_pos (by omega)]
          · rw [if_neg hr2, if_neg (by omega)]
      · have hn : n = 4 := by omega
        subst hn
        rw [if_neg h3]
        have e : 2 + 5 * 4 = 22 := by norm_num
        rw [e, foldlM_fillCell_row4]
        rfl
    · rw [if_neg h4, if_neg (by omega)]
      rfl

/-- One call of `drawGeometry` in closed form: the load is defined exactly when the file
holds at most 26 integers on at most 4 lines; the cell loop then runs to `loopBound` on the
map `mapAfter`. -/
theorem drawGeometry_eq (junk : MapArray) (file : MapFile) (s : State) :
    drawGeometry junk file s =
      if (tokens file).length ≤ 26 ∧ file.length ≤ 4 then
        (drawCells (loopBound junk file)
          ⟨{ s with map := mapAfter (mapArrayAfter junk file) file.length s.map }, 0, []⟩).map
          (fun f => (f.st, f.out))
      else none := by
  unfold drawGeometry
  rw [readMapArray_eq]
  by_cases h1 : (tokens file).length ≤ 26
  · rw [if_pos h1]
    simp only
    rw [fillMap_eq]
    by_cases h2 : file.length ≤ 4
    · rw [if_pos h2, if_pos ⟨h1, h2⟩]
      simp only
      unfold loopBound
      cases drawCells (mapArrayAfter junk file 0).toNat
        ⟨{ s with map := mapAfter (mapArrayAfter junk file) file.length s.map }, 0, []⟩ with
      | none => rfl
      | some f => rfl
    · rw [if_neg h2, if_neg (fun h => h2 h.2)]
  · rw [if_neg h1, if_neg (fun h => h1 h.1)]

/-- A loop over the concatenation of the lists `g a` is the loop over `a` of the loops over
`g a`. -/
theorem foldlM_flatMap_option {α β γ : Type} (g : α → List β) (f : γ → β → Option γ) :
    ∀ (l : List α) (c : γ),
      (l.flatMap g).foldlM f c = l.foldlM (fun c a => (g a).foldlM f c) c := by
  intro l
  induction l with
  | nil => intro c; rfl
  | cons a l ih =>
    intro c
    rw [List.flatMap_cons, List.foldlM_append, List.foldlM_cons]
    cases (g a).foldlM f c with
    | none => rfl
    | some c1 =>
      simp only [Option.bind_eq_bind, Option.some_bind]
      exact ih c1

/-- The two nested cell loops are one loop over `cellOrder`. -/
theorem drawCells_eq (n : Nat) (f : Frame) :
    drawCells n f = (cellOrder n).foldlM (fun g p => drawCell p.1 p.2 g) f := by
  unfold drawCells cellOrder
  rw [foldlM_flatMap_option]
  congr 1
  funext g i
  rw [List.foldlM_map]

/-- The cells of `cellOrder n` are the pairs below `n`. -/
theorem mem_cellOrder (n i j : Nat) : (i, j) ∈ cellOrder n ↔ i < n ∧ j < n := by
  unfold cellOrder
  simp only [List.mem_flatMap, List.mem_range, List.mem_map, Prod.mk.injEq]
  constructor
  · rintro ⟨a, ha, b, hb, rfl, rfl⟩
    exact ⟨ha, hb⟩
  · rintro ⟨hi, hj⟩
    exact ⟨i, hi, j, hj, rfl, rfl⟩

/-- In `cellOrder n` the cells come in strictly increasing row-major order: each cell is
visited once, rows outermost. -/
theorem cellOrder_pairwise (n : Nat) :
    (cellOrder n).Pairwise (fun p q => p.1 < q.1 ∨ (p.1 = q.1 ∧ p.2 < q.2)) := by
  unfold cellOrder
  rw [List.pairwise_flatMap]
  constructor
  · intro i _
    rw [List.pairwise_map]
    exact (List.pairwise_lt_range n).imp (fun h => Or.inr ⟨rfl, h⟩)
  · refine (List.pairwise_lt_range n).imp ?_
    intro a b hab p hp q hq
    simp only [List.mem_map, List.mem_range] at hp hq
    obtain ⟨_, _, rfl⟩ := hp
    obtain ⟨_, _, rfl⟩ := hq
    exact Or.inl hab

/-- The number of cells of `cellOrder n`. -/
theorem length_cellOrder (n : Nat) : (cellOrder n).length = n * n := by
  unfold cellOrder
  simp [List.length_flatMap, Function.comp_def]

/-- The draws of one defined cell body: the floor tile first, then draws of other kinds. -/
theorem drawCell_out (i j : Nat) (f f' : Frame) (h : drawCell i j f = some f') :
    ∃ extra : List Draw, f'.out = f.out ++ ⟨.floor, .square, (-2, j, i), 0⟩ :: extra ∧
      ∀ d ∈ extra, d.kind ≠ .floor := by
  cases hm : mapAt f.st.map i j with
  | none => rw [drawCell_of_outside i j f hm] at h; cases h
  | some c =>
    rw [drawCell_of_code i j f c hm] at h
    split_ifs at h with h2 h3 h4 h56
    · obtain ⟨_, _, _, e4⟩ := drawWall_spec i j _ f' h
      refine ⟨[⟨.wall, .square, (-1, j, i), 1⟩], ?_, ?_⟩
      · rw [e4]
        simp [drawFloor]
      · intro d hd
        rw [List.mem_singleton] at hd
        rw [hd]
        simp
    · cases h
      obtain ⟨_, _, _, _, _, e4⟩ := drawDoor_spec i j (drawFloor i j f)
      refine ⟨(if f.st.collideDoor = true ∧ f.st.collideKey = true then []
        else [⟨.door, .square, (-1, j, i), f.st.whichKey⟩]), ?_, ?_⟩
      · rw [e4]
        simp only [drawFloor, List.append_assoc, List.singleton_append]
      · intro d hd
        split_ifs at hd <;>
          first
            | (rw [List.mem_singleton] at hd; rw [hd]; simp)
            | cases hd
    · cases h
      obtain ⟨_, _, _, e4⟩ := drawPlayer_spec i j (drawFloor i j f)
      refine ⟨[⟨.player, .model2, (-1, j + f.st.objy, i + f.st.objz), 1⟩], ?_, ?_⟩
      · rw [e4]
        simp only [drawFloor, List.append_assoc, List.singleton_append]
      · intro d hd
        rw [List.mem_singleton] at hd
        rw [hd]
        simp
    · cases h
      obtain ⟨_, _, _, _, _, _, e4⟩ := drawKey_spec i j c (drawFloor i j f) h56
      refine ⟨(if f.st.collideKey = false
        then [⟨.key, .model1, (-1, j, i), if c = 5 then 2 else 3⟩] else []), ?_, ?_⟩
      · rw [e4]
        simp only [drawFloor, List.append_assoc, List.singleton_append]
      · intro d hd
        split_ifs at hd <;>
          first
            | (rw [List.mem_singleton] at hd; rw [hd]; simp)
            | cases hd
    · cases h
      exact ⟨[], rfl, fun d hd => by cases hd⟩

/-- The floor draws of a defined loop over a list of cells are those issued before it
followed by one tile per cell, in the order of the list. -/
theorem floors_of_cells (l : List (Nat × Nat)) :
    ∀ (f f' : Frame), l.foldlM (fun g p => drawCell p.1 p.2 g) f = some f' →
      f'.out.filter (fun d => d.kind = .floor) =
        f.out.filter (fun d => d.kind = .floor) ++
          l.map (fun p => (⟨.floor, .square, (-2, p.2, p.1), 0⟩ : Draw)) := by
  induction l with
  | nil =>
    intro f f' h
    rw [List.foldlM_nil] at h
    cases h
    simp
  | cons p l ih =>
    intro f f' h
    rw [List.foldlM_cons] at h
    cases hc : drawCell p.1 p.2 f with
    | none => rw [hc] at h; cases h
    | some f1 =>
      rw [hc] at h
      rw [ih f1 f' h]
      obtain ⟨extra, e1, e2⟩ := drawCell_out p.1 p.2 f f1 hc
      have he : extra.filter (fun d => d.kind = .floor) = [] := by
        rw [List.filter_eq_nil_iff]
        intro d hd
        simpa using e2 d hd
      rw [e1, List.filter_append, List.filter_cons_of_pos (by simp), he]
      simp

/-- A cell inside `map[5][5]` with room left in `wallPositions[9]` has a defined body, which
raises `t` by at most one. -/
theorem drawCell_defined (i j : Nat) (f : Frame) (hi : i < 5) (hj : j < 5) (ht : f.t < 9) :
    ∃ f', drawCell i j f = some f' ∧ f'.t ≤ f.t + 1 := by
  have hm := mapAt_of_inside f.st.map i j (by omega)
  rw [drawCell_of_code i j f _ hm]
  generalize f.st.map ⟨(i : Int).toNat, _⟩ ⟨(j : Int).toNat, _⟩ = c
  by_cases h2 : c = 2
  · have htf : (drawFloor i j f).t < 9 := ht
    rw [if_pos h2]
    unfold drawWall
    rw [dif_pos htf]
    exact ⟨_, rfl, Nat.le_refl _⟩
  · rw [if_neg h2]
    by_cases h3 : c = 3
    · rw [if_pos h3]
      refine ⟨_, rfl, ?_⟩
      unfold drawDoor
      simp only
      split <;> exact Nat.le_succ _
    · rw [if_neg h3]
      by_cases h4 : c = 4
      · rw [if_pos h4]
        exact ⟨_, rfl, Nat.le_succ _⟩
      · rw [if_neg h4]
        by_cases h56 : c = 5 ∨ c = 6
        · rw [if_pos h56]
          exact ⟨_, rfl, Nat.le_succ _⟩
        · rw [if_neg h56]
          exact ⟨_, rfl, Nat.le_succ _⟩

/-- A loop over at most `9 - t` cells inside `map[5][5]` is defined. -/
theorem cells_defined (l : List (Nat × Nat)) :
    ∀ (f : Frame), (∀ p ∈ l, p.1 < 5 ∧ p.2 < 5) → f.t + l.length ≤ 9 →
      ∃ f', l.foldlM (fun g p => drawCell p.1 p.2 g) f = some f' := by
  induction l with
  | nil =>
    intro f _ _
    exact ⟨f, rfl⟩
  | cons p l ih =>
    intro f hin hlen
    rw [List.length_cons] at hlen
    obtain ⟨f1, h1, ht1⟩ := drawCell_defined p.1 p.2 f
      (hin p (List.mem_cons_self _ _)).1 (hin p (List.mem_cons_self _ _)).2 (by omega)
    obtain ⟨f', h'⟩ := ih f1 (fun q hq => hin q (List.mem_cons_of_mem _ hq)) (by omega)
    refine ⟨f', ?_⟩
    rw [List.foldlM_cons, h1]
    exact h'

/-- A frame over a file of at most 26 integers on at most 4 lines whose first number is at
most 3 is defined. -/
theorem drawGeometry_defined (junk : MapArray) (file : MapFile) (s : State)
    (h1 : (tokens file).length ≤ 26) (h2 : file.length ≤ 4) (h3 : loopBound junk file ≤ 3) :
    ∃ s' out, drawGeometry junk file s = some (s', out) := by
  rw [drawGeometry_eq, if_pos ⟨h1, h2⟩, drawCells_eq]
  obtain ⟨f', h'⟩ := cells_defined (cellOrder (loopBound junk file))
    ⟨{ s with map := mapAfter (mapArrayAfter junk file) file.length s.map }, 0, []⟩
    (fun p hp => by
      have := (mem_cellOrder (loopBound junk file) p.1 p.2).mp hp
      omega)
    (by
      rw [length_cellOrder]
      have : loopBound junk file * loopBound junk file ≤ 3 * 3 := Nat.mul_le_mul h3 h3
      simp only [Nat.zero_add]
      omega)
  rw [h']
  exact ⟨_, _, rfl⟩

/-- A defined frame, as a defined loop over `cellOrder` started on the loaded map. -/
theorem drawGeometry_some (junk : MapArray) (file : MapFile) (s s' : State)
    (out : List Draw) (h : drawGeometry junk file s = some (s', out)) :
    ((tokens file).length ≤ 26 ∧ file.length ≤ 4) ∧
    ∃ f', (cellOrder (loopBound junk file)).foldlM (fun g p => drawCell p.1 p.2 g)
        ⟨{ s with map := mapAfter (mapArrayAfter junk file) file.length s.map }, 0, []⟩
        = some f' ∧ f'.st = s' ∧ f'.out = out := by
  rw [drawGeometry_eq] at h
  split_ifs at h with hc
  refine ⟨hc, ?_⟩
  rw [drawCells_eq] at h
  cases hf : (cellOrder (loopBound junk file)).foldlM (fun g p => drawCell p.1 p.2 g)
      ⟨{ s with map := mapAfter (mapArrayAfter junk file) file.length s.map }, 0, []⟩ with
  | none => rw [hf] at h; cases h
  | some f' =>
    rw [hf] at h
    simp only [Option.map_some', Option.some.injEq, Prod.mk.injEq] at h
    exact ⟨f', rfl, h.1, h.2⟩

/-- The floor draws of a defined frame: one tile per cell of `cellOrder`, in that order. -/
theorem drawGeometry_floors (junk : MapArray) (file : MapFile) (s s' : State)
    (out : List Draw) (h : drawGeometry junk file s = some (s', out)) :
    out.filter (fun d => d.kind = .floor) =
      (cellOrder (loopBound junk file)).map
        (fun p => (⟨.floor, .square, (-2, p.2, p.1), 0⟩ : Draw)) := by
  obtain ⟨_, f', hf, _, ho⟩ := drawGeometry_some junk file s s' out h
  rw [← ho, floors_of_cells _ _ f' hf]
  rfl

/-- The cell body is `cellBody` at the code read from the map. -/
theorem drawCell_eq_cellBody (i j : Nat) (f : Frame) (c : Int)
    (hc : mapAt f.st.map i j = some c) : drawCell i j f = cellBody c i j f := by
  rw [drawCell_of_code i j f c hc]
  rfl

/-- The loaded map holds `loadedCode` at every cell inside `map[5][5]`. -/
theorem mapAt_mapAfter (junk : MapArray) (file : MapFile) (old : Grid) (p : Nat × Nat)
    (h1 : p.1 < 5) (h2 : p.2 < 5) :
    mapAt (mapAfter (mapArrayAfter junk file) file.length old) p.1 p.2
      = some (loadedCode junk file old p) := by
  rw [mapAt_of_inside _ _ _ (by omega)]
  unfold loadedCode mapAfter
  by_cases h : p.1 < file.length
  · simp [h]
  · rw [mapAt_of_inside _ _ _ (by omega)]
    simp [h]

/-- Over a map that holds `code p` at every cell `p` of the list, the loop of cell bodies
is the loop of `cellBody` at these codes. -/
theorem cells_eq_bodies (M : Grid) (code : Nat × Nat → Int) (l : List (Nat × Nat)) :
    (∀ p ∈ l, mapAt M p.1 p.2 = some (code p)) →
    ∀ (f : Frame), f.st.map = M →
      l.foldlM (fun g p => drawCell p.1 p.2 g) f
        = l.foldlM (fun g p => cellBody (code p) p.1 p.2 g) f := by
  induction l with
  | nil => intro _ f _; rfl
  | cons p l ih =>
    intro hcode f hf
    have hp : mapAt f.st.map p.1 p.2 = some (code p) := by
      rw [hf]
      exact hcode p (List.mem_cons_self _ _)
    rw [List.foldlM_cons, List.foldlM_cons, drawCell_eq_cellBody p.1 p.2 f (code p) hp]
    cases hb : cellBody (code p) p.1 p.2 f with
    | none => rfl
    | some f1 =>
      have hd : drawCell p.1 p.2 f = some f1 := by
        rw [drawCell_eq_cellBody p.1 p.2 f (code p) hp]
        exact hb
      have hm : f1.st.map = M := by
        rw [(drawCell_sound p.1 p.2 f f1 hd).2.2.1]
        exact hf
      simp only [Option.bind_eq_bind, Option.some_bind]
      exact ih (fun q hq => hcode q (List.mem_cons_of_mem _ hq)) f1 hm

/-- The content of `mapArray` after the read loop, at an index the file reaches. -/
theorem arrayAt_mapArrayAfter (junk : MapArray) (file : MapFile) (k : Nat)
    (hk : k < (tokens file).length) (h26 : k < 26) :
    arrayAt (mapArrayAfter junk file) k = (tokens file).getD k 0 := by
  unfold arrayAt mapArrayAfter
  rw [dif_pos h26]
  simp only
  rw [if_pos hk]

/-- A property kept by every defined step on an element of the list is kept by the loop. -/
theorem foldlM_option_preserves_mem {α β : Type} (I : β → Prop) (f : β → α → Option β) :
    ∀ (l : List α), (∀ b a b', a ∈ l → I b → f b a = some b' → I b') →
      ∀ (b b' : β), I b → l.foldlM f b = some b' → I b' := by
  intro l
  induction l with
  | nil =>
    intro _ b b' hb h
    rw [List.foldlM_nil] at h
    cases h
    exact hb
  | cons a l ih =>
    intro hf b b' hb h
    rw [List.foldlM_cons] at h
    cases hfa : f b a with
    | none => rw [hfa] at h; cases h
    | some b1 =>
      rw [hfa] at h
      exact ih (fun c x c' hx => hf c x c' (List.mem_cons_of_mem _ hx)) b1 b'
        (hf b a b1 (List.mem_cons_self _ _) hb hfa) h

/-- A defined loop over `l1 ++ a :: l2` is a defined loop over `l1`, a defined step on `a`
and a defined loop over `l2`. -/
theorem foldlM_option_split {α β : Type} (f : β → α → Option β) (l1 l2 : List α) (a : α)
    (b b' : β) (h : (l1 ++ a :: l2).foldlM f b = some b') :
    ∃ b1 b2, l1.foldlM f b = some b1 ∧ f b1 a = some b2 ∧ l2.foldlM f b2 = some b' := by
  rw [List.foldlM_append] at h
  cases h1 : l1.foldlM f b with
  | none => rw [h1] at h; cases h
  | some b1 =>
    rw [h1] at h
    simp only [Option.bind_eq_bind, Option.some_bind, List.foldlM_cons] at h
    cases h2 : f b1 a with
    | none => rw [h2] at h; cases h
    | some b2 =>
      rw [h2] at h
      exact ⟨b1, b2, rfl, h2, h⟩

/-- A defined cell body never writes `objy` or `objz`, and writes the recorded key and door
positions only at a cell of code 3, 5 or 6. -/
theorem drawCell_marks (i j : Nat) (f f' : Frame) (c : Int)
    (hc : mapAt f.st.map i j = some c) (h : drawCell i j f = some f') :
    f'.st.objy = f.st.objy ∧ f'.st.objz = f.st.objz ∧
    (c ≠ 3 → c ≠ 5 → c ≠ 6 →
      f'.st.keyy = f.st.keyy ∧ f'.st.keyz = f.st.keyz ∧
      f'.st.doory = f.st.doory ∧ f'.st.doorz = f.st.doorz) := by
  rw [drawCell_of_code i j f c hc] at h
  split_ifs at h with h2 h3 h4 h56
  · unfold drawWall at h
    split at h
    · cases h
      exact ⟨rfl, rfl, fun _ _ _ => ⟨rfl, rfl, rfl, rfl⟩⟩
    · cases h
  · cases h
    refine ⟨?_, ?_, fun n3 _ _ => absurd h3 n3⟩
    · unfold drawDoor
      simp only
      split <;> rfl
    · unfold drawDoor
      simp only
      split <;> rfl
  · cases h
    unfold drawPlayer
    simp only
    refine ⟨?_, ?_, fun _ _ _ => ⟨?_, ?_, ?_, ?_⟩⟩ <;> split <;> split <;> rfl
  · cases h
    refine ⟨?_, ?_, fun _ n5 n6 => ?_⟩
    · unfold drawKey
      simp only
      split <;> split <;> rfl
    · unfold drawKey
      simp only
      split <;> split <;> rfl
    · rcases h56 with h5 | h6
      · exact absurd h5 n5
      · exact absurd h6 n6
  · cases h
    exact ⟨rfl, rfl, fun _ _ _ => ⟨rfl, rfl, rfl, rfl⟩⟩

/-- A cell inside `map[5][5]` whose code is `c` has a defined body as soon as a wall cell
finds room in `wallPositions[9]`; the body raises `t` exactly at a wall cell. -/
theorem drawCell_defined_of_code (i j : Nat) (f : Frame) (c : Int)
    (hc : mapAt f.st.map i j = some c) (ht : c = 2 → f.t < 9) :
    ∃ f', drawCell i j f = some f' ∧ f'.t = f.t + (if c = 2 then 1 else 0) := by
  rw [drawCell_of_code i j f c hc]
  by_cases h2 : c = 2
  · have htf : (drawFloor i j f).t < 9 := ht h2
    rw [if_pos h2, if_pos h2]
    unfold drawWall
    rw [dif_pos htf]
    exact ⟨_, rfl, rfl⟩
  · rw [if_neg h2, if_neg h2]
    by_cases h3 : c = 3
    · rw [if_pos h3]
      refine ⟨_, rfl, ?_⟩
      unfold drawDoor
      simp only
      split <;> rfl
    · rw [if_neg h3]
      by_cases h4 : c = 4
      · rw [if_pos h4]
        exact ⟨_, rfl, rfl⟩
      · rw [if_neg h4]
        by_cases h56 : c = 5 ∨ c = 6
        · rw [if_pos h56]
          exact ⟨_, rfl, rfl⟩
        · rw [if_neg h56]
          exact ⟨_, rfl, rfl⟩

/-- A loop over cells inside `map[5][5]` is defined when its wall cells fit into
`wallPositions[9]`. -/
theorem cells_defined_of_walls (M : Grid) (code : Nat × Nat → Int) (l : List (Nat × Nat)) :
    (∀ p ∈ l, mapAt M p.1 p.2 = some (code p)) →
    ∀ (f : Frame), f.st.map = M →
      f.t + (l.filter (fun p => decide (code p = 2))).length ≤ 9 →
      ∃ f', l.foldlM (fun g p => drawCell p.1 p.2 g) f = some f' := by
  induction l with
  | nil => intro _ f _ _; exact ⟨f, rfl⟩
  | cons p l ih =>
    intro hcode f hf hlen
    have hp : mapAt f.st.map p.1 p.2 = some (code p) := by
      rw [hf]
      exact hcode p (List.mem_cons_self _ _)
    by_cases h2 : code p = 2
    · rw [List.filter_cons_of_pos (by simpa using h2), List.length_cons] at hlen
      obtain ⟨f1, h1, ht1⟩ := drawCell_defined_of_code p.1 p.2 f (code p) hp
        (fun _ => by omega)
      rw [if_pos h2] at ht1
      obtain ⟨f', h'⟩ := ih (fun q hq => hcode q (List.mem_cons_of_mem _ hq)) f1
        (by rw [(drawCell_sound p.1 p.2 f f1 h1).2.2.1]; exact hf) (by omega)
      exact ⟨f', by rw [List.foldlM_cons, h1]; exact h'⟩
    · rw [List.filter_cons_of_neg (by simpa using h2)] at hlen
      obtain ⟨f1, h1, ht1⟩ := drawCell_defined_of_code p.1 p.2 f (code p) hp
        (fun h => absurd h h2)
      rw [if_neg h2] at ht1
      obtain ⟨f', h'⟩ := ih (fun q hq => hcode q (List.mem_cons_of_mem _ hq)) f1
        (by rw [(drawCell_sound p.1 p.2 f f1 h1).2.2.1]; exact hf) (by omega)
      exact ⟨f', by rw [List.foldlM_cons, h1]; exact h'⟩

/-- A frame over a file of at most 26 integers on at most 4 lines whose first number is at
most 5 is defined when the visited cells hold at most 9 walls. -/
theorem drawGeometry_defined_of_walls (junk : MapArray) (file : MapFile) (s : State)
    (h1 : (tokens file).length ≤ 26) (h2 : file.length ≤ 4) (h3 : loopBound junk file ≤ 5)
    (h4 : ((cellOrder (loopBound junk file)).filter
      (fun p => decide (loadedCode junk file s.map p = 2))).length ≤ 9) :
    ∃ s' out, drawGeometry junk file s = some (s', out) := by
  rw [drawGeometry_eq, if_pos ⟨h1, h2⟩, drawCells_eq]
  obtain ⟨f', h'⟩ := cells_defined_of_walls
    (mapAfter (mapArrayAfter junk file) file.length s.map) (loadedCode junk file s.map)
    (cellOrder (loopBound junk file))
    (fun p hp => by
      have hlt := (mem_cellOrder (loopBound junk file) p.1 p.2).mp hp
      exact mapAt_mapAfter junk file s.map p (by omega) (by omega))
    ⟨{ s with map := mapAfter (mapArrayAfter junk file) file.length s.map }, 0, []⟩ rfl
    (by simpa using h4)
  rw [h']
  exact ⟨_, _, rfl⟩

/-! ## Claims -/

/-- C1: with `collideKey` false, a position inside the playable bound whose two sampled index
pairs lie in the `5 x 5` grid is rejected by `isWalkable` exactly when the cell at the
ceiling indices or the cell at the floor indices holds 2 (wall) or 3 (door); when both
cells hold 0 or 1 it is accepted.  In every such case `isWalkable` returns a value. -/
theorem isWalkable_false_iff_wall_or_door (s : State) (x y : ℚ)
    (hk : s.collideKey = false)
    (hx : -0.2 ≤ x ∧ x ≤ 4.3) (hy : -4.5 ≤ y ∧ y ≤ 0.2)
    (hc : 0 ≤ ⌈y + 4⌉ ∧ ⌈y + 4⌉ < 5 ∧ 0 ≤ ⌈x⌉ ∧ ⌈x⌉ < 5)
    (hf : 0 ≤ ⌊y + 4⌋ ∧ ⌊y + 4⌋ < 5 ∧ 0 ≤ ⌊x⌋ ∧ ⌊x⌋ < 5) :
    ∃ c f, mapAt s.map ⌈y + 4⌉ ⌈x⌉ = some c ∧ mapAt s.map ⌊y + 4⌋ ⌊x⌋ = some f ∧
      (isWalkable s x y = some false ∨ isWalkable s x y = some true) ∧
      (isWalkable s x y = some false ↔ (c = 2 ∨ c = 3 ∨ f = 2 ∨ f = 3)) ∧
      ((c = 0 ∨ c = 1) ∧ (f = 0 ∨ f = 1) → isWalkable s x y = some true) := by
  refine ⟨_, _, mapAt_of_inside s.map _ _ hc, mapAt_of_inside s.map _ _ hf, ?_⟩
  rw [isWalkable_inside s x y hk hx hy, mapAt_of_inside s.map _ _ hc,
    mapAt_of_inside s.map _ _ hf]
  generalize s.map ⟨⌈y + 4⌉.toNat, _⟩ ⟨⌈x⌉.toNat, _⟩ = c
  generalize s.map ⟨⌊y + 4⌋.toNat, _⟩ ⟨⌊x⌋.toNat, _⟩ = f
  by_cases h1 : c = 3 ∨ c = 2
  · simp only [if_pos h1]
    refine ⟨Or.inl trivial, ?_, ?_⟩
    · constructor
      · intro _
        rcases h1 with h | h
        · exact Or.inr (Or.inl h)
        · exact Or.inl h
      · intro _
        trivial
    · rintro ⟨h0 | h0, _⟩ <;> rcases h1 with h | h <;> omega
  · simp only [if_neg h1]
    by_cases h2 : f = 3 ∨ f = 2
    · simp only [if_pos h2]
      refine ⟨Or.inl trivial, ?_, ?_⟩
      · constructor
        · intro _
          rcases h2 with h | h
          · exact Or.inr (Or.inr (Or.inr h))
          · exact Or.inr (Or.inr (Or.inl h))
        · intro _
          trivial
      · rintro ⟨_, h0 | h0⟩ <;> rcases h2 with h | h <;> omega
    · simp only [if_neg h2]
      refine ⟨Or.inr trivial, ?_, ?_⟩
      · constructor
        · intro h
          simp at h
        · rintro (h | h | h | h)
          · exact absurd (Or.inr h) h1
          · exact absurd (Or.inl h) h1
          · exact absurd (Or.inr h) h2
          · exact absurd (Or.inl h) h2
      · intro _
        trivial

/-- Witness of C1: the start state at `(x, y) = (1/2, -1/2)`, whose sampled cells are
`map[4][1]` and `map[3][0]`. -/
theorem isWalkable_false_iff_wall_or_door_witness :
    ∃ c f, mapAt State.initial.map ⌈(-1 / 2 : ℚ) + 4⌉ ⌈(1 / 2 : ℚ)⌉ = some c ∧
      mapAt State.initial.map ⌊(-1 / 2 : ℚ) + 4⌋ ⌊(1 / 2 : ℚ)⌋ = some f ∧
      (isWalkable State.initial (1 / 2) (-1 / 2) = some false ∨
        isWalkable State.initial (1 / 2) (-1 / 2) = some true) ∧
      (isWalkable State.initial (1 / 2) (-1 / 2) = some false ↔
        (c = 2 ∨ c = 3 ∨ f = 2 ∨ f = 3)) ∧
      ((c = 0 ∨ c = 1) ∧ (f = 0 ∨ f = 1) →
        isWalkable State.initial (1 / 2) (-1 / 2) = some true) :=
  have hcr : ⌈(-1 / 2 : ℚ) + 4⌉ = 4 := by norm_num [Int.ceil_eq_iff]
  have hcc : ⌈(1 / 2 : ℚ)⌉ = 1 := by norm_num [Int.ceil_eq_iff]
  have hfr : ⌊(-1 / 2 : ℚ) + 4⌋ = 3 := by norm_num [Int.floor_eq_iff]
  have hfc : ⌊(1 / 2 : ℚ)⌋ = 0 := by norm_num [Int.floor_eq_iff]
  isWalkable_false_iff_wall_or_door State.initial (1 / 2) (-1 / 2) rfl
    (by norm_num) (by norm_num)
    (by rw [hcr, hcc]; decide) (by rw [hfr, hfc]; decide)

/-- C2: with `collideKey` true, `isWalkable` returns true for every position and every map
content. -/
theorem isWalkable_true_of_collideKey (s : State) (x y : ℚ) (hk : s.collideKey = true) :
    isWalkable s x y = some true := by
  unfold isWalkable
  rw [if_pos hk]

/-- Witness of C2: a position outside the playable bound over a map of walls. -/
theorem isWalkable_true_of_collideKey_witness :
    isWalkable { State.initial with collideKey := true, map := fun _ _ => 2 } 100 (-100)
      = some true :=
  isWalkable_true_of_collideKey
    { State.initial with collideKey := true, map := fun _ _ => 2 } 100 (-100) rfl

/-- C3: with `collideKey` false, a position with `x < -0.2`, `x > 4.3`, `y < -4.5` or
`y > 0.2` is rejected by `isWalkable`, whatever the map holds. -/
theorem isWalkable_false_outside_bound (s : State) (x y : ℚ) (hk : s.collideKey = false)
    (hb : x < -0.2 ∨ x > 4.3 ∨ y < -4.5 ∨ y > 0.2) :
    isWalkable s x y = some false := by
  have hb2 : x < -0.2 ∨ y < -4.5 ∨ x > 4.3 ∨ y > 0.2 := by
    rcases hb with h | h | h | h
    · exact Or.inl h
    · exact Or.inr (Or.inr (Or.inl h))
    · exact Or.inr (Or.inl h)
    · exact Or.inr (Or.inr (Or.inr h))
  unfold isWalkable
  rw [if_neg (by simp [hk]), if_pos hb2]

/-- Witness of C3: `x = 5` over the all-floor start map. -/
theorem isWalkable_false_outside_bound_witness :
    isWalkable State.initial 5 0 = some false :=
  isWalkable_false_outside_bound State.initial 5 0 rfl (Or.inr (Or.inl (by norm_num)))

/-- C10 (evaluation at the failing inputs): with `collideKey` false the positions
`(17/4, 0)` and `(-1/8, 0)` pass the playable-bound test, yet the first samples column
`ceil(17/4) = 5` and the second column `floor(-1/8) = -1`, both outside `map[5][5]`. -/
theorem isWalkable_index_outside_grid :
    (¬ ((17 / 4 : ℚ) < -0.2 ∨ (0 : ℚ) < -4.5 ∨ (17 / 4 : ℚ) > 4.3 ∨ (0 : ℚ) > 0.2) ∧
      ⌈(17 / 4 : ℚ)⌉ = 5 ∧ isWalkable State.initial (17 / 4) 0 = none) ∧
    (¬ ((-1 / 8 : ℚ) < -0.2 ∨ (0 : ℚ) < -4.5 ∨ (-1 / 8 : ℚ) > 4.3 ∨ (0 : ℚ) > 0.2) ∧
      ⌊(-1 / 8 : ℚ)⌋ = -1 ∧ isWalkable State.initial (-1 / 8) 0 = none) := by
  have h1 : ⌈(17 / 4 : ℚ)⌉ = 5 := by norm_num [Int.ceil_eq_iff]
  have h2 : ⌊(-1 / 8 : ℚ)⌋ = -1 := by norm_num [Int.floor_eq_iff]
  have h3 : ⌈(-1 / 8 : ℚ)⌉ = 0 := by norm_num [Int.ceil_eq_iff]
  have h4 : ⌈(0 : ℚ) + 4⌉ = 4 := by norm_num [Int.ceil_eq_iff]
  have h5 : ⌊(0 : ℚ) + 4⌋ = 4 := by norm_num [Int.floor_eq_iff]
  refine ⟨⟨by norm_num, h1, ?_⟩, ⟨by norm_num, h2, ?_⟩⟩
  · rw [isWalkable_inside _ _ _ rfl (by norm_num) (by norm_num), h1, h4,
      mapAt_of_outside _ _ _ (by decide)]
  · rw [isWalkable_inside _ _ _ rfl (by norm_num) (by norm_num), h3, h4, h5, h2,
      mapAt_of_inside _ _ _ (by decide), mapAt_of_outside _ _ _ (by decide)]
    rfl

/-- C4 (evaluation at the failing input): over `fileSpawnKey` with `objy = 24/25` the first
frame records the key cell `(keyy, keyz) = (1, 1)` with `whichKey = 2`; in the second frame
the spawn cell `(i, j) = (1, 0)` is visited with the player at `(24/25, 1)`, at Euclidean
distance `1/25` from the key cell, and `collideKey` is still false after that frame, so the
third frame issues the key draw again; the same happens with `objy = 9/10`, at distance
exactly `1/10`.  `distanceTest` receives the truncated coordinates `(0, 1)` and `(1, 1)`. -/
theorem spawn_near_key_leaves_collideKey_false :
    (runSteps [.frame zeroArray fileSpawnKey] startNearKey).map
        (fun s => (s.keyy, s.keyz, s.whichKey, s.objy, s.objz, s.collideKey))
      = some (1, 1, 2, 24 / 25, 0, false) ∧
    ((1 - ((0 : ℚ) + 24 / 25)) ^ 2 + (1 - ((1 : ℚ) + 0)) ^ 2 ≤ 0.1 ^ 2) ∧
    (truncToInt ((0 : ℚ) + 24 / 25), truncToInt ((1 : ℚ) + 0)) = (0, 1) ∧
    (runSteps [.frame zeroArray fileSpawnKey, .frame zeroArray fileSpawnKey]
        startNearKey).map (fun s => s.collideKey) = some false ∧
    ((runSteps [.frame zeroArray fileSpawnKey, .frame zeroArray fileSpawnKey]
        startNearKey).bind
        (fun s => (drawGeometry zeroArray fileSpawnKey s).map (fun r => r.2)))
      = some [⟨.floor, .square, (-2, 0, 0), 0⟩, ⟨.floor, .square, (-2, 1, 0), 0⟩,
          ⟨.floor, .square, (-2, 0, 1), 0⟩, ⟨.player, .model2, (-1, 24 / 25, 1), 1⟩,
          ⟨.floor, .square, (-2, 1, 1), 0⟩, ⟨.key, .model1, (-1, 1, 1), 2⟩] ∧
    ((1 - ((0 : ℚ) + 9 / 10)) ^ 2 + (1 - ((1 : ℚ) + 0)) ^ 2 = 0.1 ^ 2) ∧
    (runSteps [.frame zeroArray fileSpawnKey, .frame zeroArray fileSpawnKey]
        startTenthFromKey).map (fun s => s.collideKey) = some false := by
  refine ⟨by decide!, by norm_num, by decide!, by decide!, by decide!, by norm_num,
    by decide!⟩

/-- C5 (evaluation at the failing input): from the start state a Right input without shift
passes the candidate `objy = 0 + 3/100` to `isWalkable`, which accepts it, and leaves
`objy = 3/50`, one more step past the candidate; a Down input likewise passes
`objz = -3/100` and leaves `objz = -3/50`. -/
theorem arrow_accepted_lands_past_candidate :
    stepLen State.initial = 3 / 100 ∧
    isWalkable { State.initial with objy := 3 / 100 } (3 / 100) 0 = some true ∧
    (handleEvent .keyDownRight State.initial).map (fun s => (s.objx, s.objy, s.objz))
      = some (0, 3 / 50, 0) ∧
    isWalkable { State.initial with objz := -3 / 100 } 0 (-3 / 100) = some true ∧
    (handleEvent (.keyDownDown false) State.initial).map (fun s => (s.objx, s.objy, s.objz))
      = some (0, 0, -3 / 50) := by
  refine ⟨by decide!, by decide!, by decide!, by decide!, by decide!⟩

/-- C6 (evaluation at the failing input): over a map whose cell `map[4][1]` is a wall, a
Right input without shift from `objy = 0` has its candidate `objy = 3/100` rejected and
leaves `objy = 3/100 - 9/100 = -3/50`, which is not `0 - 9/100`. -/
theorem keyDownRight_rejected_bounces_from_candidate :
    isWalkable { startAtWall with objy := 3 / 100 } (3 / 100) 0 = some false ∧
    (handleEvent .keyDownRight startAtWall).map (fun s => s.objy) = some (-3 / 50) ∧
    (-3 / 50 : ℚ) ≠ 0 - 0.09 := by
  refine ⟨by decide!, by decide!, by norm_num⟩

/-- C7: `collideKey` and `collideDoor` are monotonic: after any sequence of steps (key
events and calls of `drawGeometry` on any map file) with a defined result, a flag that was
true before is still true. -/
theorem flags_monotonic (steps : List Step) (s s' : State)
    (h : runSteps steps s = some s') :
    (s.collideKey = true → s'.collideKey = true) ∧
      (s.collideDoor = true → s'.collideDoor = true) :=
  runSteps_flags steps s s' h

/-- Witness of C7: a Right input, a frame over `fileDoorSpawnKey`, a Down input and the same
frame again, started with both flags set. -/
theorem flags_monotonic_witness :
    ∃ s', runSteps [.event .keyDownRight, .frame zeroArray fileDoorSpawnKey,
        .event (.keyDownDown false), .frame zeroArray fileDoorSpawnKey] startBothFlags
        = some s' ∧ s'.collideKey = true ∧ s'.collideDoor = true := by
  have hs : (runSteps [.event .keyDownRight, .frame zeroArray fileDoorSpawnKey,
      .event (.keyDownDown false), .frame zeroArray fileDoorSpawnKey]
      startBothFlags).isSome = true := by decide!
  obtain ⟨s', hs'⟩ := Option.isSome_iff_exists.mp hs
  exact ⟨s', hs', (flags_monotonic _ _ s' hs').1 rfl, (flags_monotonic _ _ s' hs').2 rfl⟩


/-- C8: at a door cell (code 3) the cell body issues, after the floor draw, the door draw at
`(-1, col, row)` textured with `whichKey` exactly when `collideDoor` and `collideKey` are not
both true; a frame that starts with both flags true issues no door draw, and neither does
any frame after any further steps of the run. -/
theorem door_draw_iff_not_both_flags :
    (∀ (i j : Nat) (f : Frame), mapAt f.st.map i j = some 3 →
      ∃ f', drawCell i j f = some f' ∧
        f'.out = f.out ++ ⟨.floor, .square, (-2, j, i), 0⟩ ::
          (if f.st.collideDoor = true ∧ f.st.collideKey = true then []
            else [⟨.door, .square, (-1, j, i), f.st.whichKey⟩])) ∧
    (∀ (steps : List Step) (s s1 s' : State) (junk : MapArray) (file : MapFile)
        (out : List Draw),
      s.collideDoor = true → s.collideKey = true → runSteps steps s = some s1 →
      drawGeometry junk file s1 = some (s', out) → ∀ d ∈ out, d.kind ≠ .door) := by
  constructor
  · intro i j f hc
    refine ⟨drawDoor i j (drawFloor i j f), ?_, ?_⟩
    · rw [drawCell_of_code i j f 3 hc]
      simp
    · rw [(drawDoor_spec i j (drawFloor i j f)).2.2.2.2.2]
      simp [drawFloor]
  · intro steps s s1 s' junk file out hd hk hrun hframe
    obtain ⟨m1, m2⟩ := runSteps_flags steps s s1 hrun
    exact drawGeometry_no_door junk file s1 s' out (m2 hd) (m1 hk) hframe

/-- Witness of C8: the door cell `(0, 1)` of a map of doors with the flags of the start
state, and two frames over `fileDoorSpawnKey` started with both flags set (the frame itself,
and the frame after a frame and a Right input). -/
theorem door_draw_iff_not_both_flags_witness :
    (∃ f', drawCell 0 1 ⟨{ State.initial with map := fun _ _ => 3 }, 0, []⟩ = some f' ∧
      f'.out = [⟨.floor, .square, (-2, 1, 0), 0⟩, ⟨.door, .square, (-1, 1, 0), 0⟩]) ∧
    (∃ s' out, drawGeometry zeroArray fileDoorSpawnKey startBothFlags = some (s', out) ∧
      ∀ d ∈ out, d.kind ≠ .door) ∧
    (∃ s1 s' out,
      runSteps [.frame zeroArray fileDoorSpawnKey, .event .keyDownRight] startBothFlags
        = some s1 ∧
      drawGeometry zeroArray fileDoorSpawnKey s1 = some (s', out) ∧
      ∀ d ∈ out, d.kind ≠ .door) := by
  refine ⟨?_, ?_, ?_⟩
  · obtain ⟨f', h1, h2⟩ := door_draw_iff_not_both_flags.1 0 1
      ⟨{ State.initial with map := fun _ _ => 3 }, 0, []⟩ (by decide)
    refine ⟨f', h1, ?_⟩
    rw [h2]
    simp [State.initial]
  · have hs : (drawGeometry zeroArray fileDoorSpawnKey startBothFlags).isSome = true := by
      decide!
    obtain ⟨r, hr⟩ := Option.isSome_iff_exists.mp hs
    exact ⟨r.1, r.2, hr, door_draw_iff_not_both_flags.2 [] startBothFlags startBothFlags
      r.1 zeroArray fileDoorSpawnKey r.2 rfl rfl rfl hr⟩
  · have hs : (runSteps [.frame zeroArray fileDoorSpawnKey, .event .keyDownRight]
        startBothFlags).isSome = true := by decide!
    obtain ⟨s1, hs1⟩ := Option.isSome_iff_exists.mp hs
    have hs2 : ((runSteps [.frame zeroArray fileDoorSpawnKey, .event .keyDownRight]
        startBothFlags).bind (drawGeometry zeroArray fileDoorSpawnKey)).isSome = true := by
      decide!
    rw [hs1] at hs2
    obtain ⟨r, hr⟩ := Option.isSome_iff_exists.mp hs2
    have hr' : drawGeometry zeroArray fileDoorSpawnKey s1 = some (r.1, r.2) := hr
    exact ⟨s1, r.1, r.2, hs1, hr', door_draw_iff_not_both_flags.2 _ startBothFlags s1
      r.1 zeroArray fileDoorSpawnKey r.2 rfl rfl hs1 hr'⟩

/-- C9: at a key cell (code 5 or 6) the cell body sets `whichKey` to 2 for code 5 and to 3
for code 6 and records `(keyy, keyz) = (col, row)` whatever the flags hold, and it issues,
after the floor draw, the key draw textured with that `whichKey` exactly when `collideKey`
is false; a frame that starts with `collideKey` true issues no key draw. -/
theorem key_draw_iff_not_collected :
    (∀ (i j : Nat) (c : Int) (f : Frame), mapAt f.st.map i j = some c → c = 5 ∨ c = 6 →
      ∃ f', drawCell i j f = some f' ∧
        f'.st.whichKey = (if c = 5 then 2 else 3) ∧
        f'.st.keyy = j ∧ f'.st.keyz = i ∧
        f'.out = f.out ++ ⟨.floor, .square, (-2, j, i), 0⟩ ::
          (if f.st.collideKey = false
            then [⟨.key, .model1, (-1, j, i), if c = 5 then 2 else 3⟩] else [])) ∧
    (∀ (s s' : State) (junk : MapArray) (file : MapFile) (out : List Draw),
      s.collideKey = true → drawGeometry junk file s = some (s', out) →
      ∀ d ∈ out, d.kind ≠ .key) := by
  constructor
  · intro i j c f hc h56
    have hne : c ≠ 2 ∧ c ≠ 3 ∧ c ≠ 4 := by
      rcases h56 with h | h <;> subst h <;> decide
    refine ⟨drawKey i j c (drawFloor i j f), ?_, ?_⟩
    · rw [drawCell_of_code i j f c hc]
      simp [hne.1, hne.2.1, hne.2.2, h56]
    · obtain ⟨_, _, _, e4, e5, e6, e7⟩ := drawKey_spec i j c (drawFloor i j f) h56
      refine ⟨e4, e5, e6, ?_⟩
      rw [e7]
      simp [drawFloor]
  · intro s s' junk file out hk hframe
    exact drawGeometry_no_key junk file s s' out hk hframe

/-- Witness of C9: the key cell `(1, 1)` of a map of code-6 keys with `collideKey` false,
and a frame over `fileSpawnKey` started with `collideKey` set. -/
theorem key_draw_iff_not_collected_witness :
    (∃ f', drawCell 1 1 ⟨{ State.initial with map := fun _ _ => 6 }, 0, []⟩ = some f' ∧
      f'.st.whichKey = 3 ∧ f'.st.keyy = 1 ∧ f'.st.keyz = 1 ∧
      f'.out = [⟨.floor, .square, (-2, 1, 1), 0⟩, ⟨.key, .model1, (-1, 1, 1), 3⟩]) ∧
    (∃ s' out, drawGeometry zeroArray fileSpawnKey startBothFlags = some (s', out) ∧
      ∀ d ∈ out, d.kind ≠ .key) := by
  refine ⟨?_, ?_⟩
  · obtain ⟨f', h1, h2, h3, h4, h5⟩ := key_draw_iff_not_collected.1 1 1 6
      ⟨{ State.initial with map := fun _ _ => 6 }, 0, []⟩ (by decide) (by decide)
    refine ⟨f', h1, ?_, ?_, ?_, ?_⟩
    · rw [h2]; decide
    · rw [h3]; norm_num
    · rw [h4]; norm_num
    · rw [h5]
      simp [State.initial]
  · have hs : (drawGeometry zeroArray fileSpawnKey startBothFlags).isSome = true := by
      decide!
    obtain ⟨r, hr⟩ := Option.isSome_iff_exists.mp hs
    exact ⟨r.1, r.2, hr, key_draw_iff_not_collected.2 startBothFlags r.1 zeroArray
      fileSpawnKey r.2 rfl hr⟩


/-- C16: `distanceTest` takes `int` parameters: for all integers its result `sqrt r` is at
most 0.1 exactly when `x1 = x2` and `y1 = y2`, and is at least 1 otherwise; so the test
of a call site with `float` arguments succeeds exactly when the arguments truncated toward
zero coincide, and the spawn branch raises `collideKey` (resp. `collideDoor`) exactly when
the truncated player coordinates `j + objy`, `i + objz` equal the truncated key (resp.
door) coordinates. -/
theorem distanceTest_le_iff_same_truncated_cell :
    (∀ x1 y1 x2 y2 : Int,
      (Real.sqrt ((distanceTestSq x1 y1 x2 y2 : ℤ) : ℝ) ≤ 0.1 ↔ x1 = x2 ∧ y1 = y2) ∧
      (¬ (x1 = x2 ∧ y1 = y2) → 1 ≤ Real.sqrt ((distanceTestSq x1 y1 x2 y2 : ℤ) : ℝ))) ∧
    (∀ a b c d : ℚ, distanceTestLe a b c d = true ↔
      truncToInt a = truncToInt c ∧ truncToInt b = truncToInt d) ∧
    (∀ (i j : Nat) (f : Frame),
      ((drawPlayer i j f).st.collideKey = true ↔ (f.st.collideKey = true ∨
        (truncToInt (j + f.st.objy) = truncToInt f.st.keyy ∧
          truncToInt (i + f.st.objz) = truncToInt f.st.keyz))) ∧
      ((drawPlayer i j f).st.collideDoor = true ↔ (f.st.collideDoor = true ∨
        (truncToInt (j + f.st.objy) = truncToInt f.st.doory ∧
          truncToInt (i + f.st.objz) = truncToInt f.st.doorz)))) := by
  refine ⟨?_, distanceTestLe_iff_trunc_eq, ?_⟩
  · intro x1 y1 x2 y2
    have h0 := distanceTestSq_nonneg x1 y1 x2 y2
    have hz := distanceTestSq_eq_zero_iff x1 y1 x2 y2
    generalize distanceTestSq x1 y1 x2 y2 = n at h0 hz
    constructor
    · rw [Real.sqrt_le_iff, ← hz]
      constructor
      · rintro ⟨_, h⟩
        have h1 : (n : ℝ) < 1 := lt_of_le_of_lt h (by norm_num)
        have h2 : n < 1 := by exact_mod_cast h1
        omega
      · intro h
        subst h
        norm_num
    · intro hne
      have h1 : n ≠ 0 := fun h => hne (hz.mp h)
      have h2 : (1 : ℤ) ≤ n := by omega
      have h3 : (1 : ℝ) ≤ (n : ℝ) := by exact_mod_cast h2
      rw [Real.le_sqrt' (by norm_num)]
      simpa using h3
  · intro i j f
    obtain ⟨e1, e2, _, _⟩ := drawPlayer_spec i j f
    rw [e1, e2, distanceTestLe_iff_trunc_eq, distanceTestLe_iff_trunc_eq]
    exact ⟨Iff.rfl, Iff.rfl⟩


/-- C13 (evaluation at the failing input): from the start state an Up input with shift
leaves `(objx, objy, objz) = (-1/10, 0, 0)`, while a Down input with shift leaves
`(1/10, 0, -3/50)`: after `objx += .1` the walk of lines 434-438 still runs and moves
`objz` by two steps. -/
theorem keyDownDown_shift_still_walks :
    (handleEvent (.keyDownUp true) State.initial).map (fun s => (s.objx, s.objy, s.objz))
      = some (-1 / 10, 0, 0) ∧
    (handleEvent (.keyDownDown true) State.initial).map (fun s => (s.objx, s.objy, s.objz))
      = some (1 / 10, 0, -3 / 50) := by
  refine ⟨by decide!, by decide!⟩

/-- C11 (counterexample): for the map description `1 1 / 4` one call of `drawGeometry` from
the start state issues two draws, the floor tile of the cell and then the player mesh. -/
theorem spawn_only_map_issues_two_draws :
    (drawGeometry zeroArray fileSpawnOnly State.initial).map (fun r => r.2)
      = some [⟨.floor, .square, (-2, 0, 0), 0⟩, ⟨.player, .model2, (-1, 0, 0), 1⟩] := by
  decide!

/-- C11 (amended): for every map description whose integers are `1 1 4` (on at most 4
lines), whatever the state and the initial content of `mapArray`, one call of
`drawGeometry` issues exactly two draws: the floor tile of the cell at `(-2, 0, 0)` with
texture 0, then the player mesh at `(-1, objy, objz)` with texture 1; it issues no wall,
door or key draw. -/
theorem spawn_only_map_draws_floor_and_player (junk : MapArray) (file : MapFile)
    (s : State) (ht : tokens file = [1, 1, 4]) (hl : file.length ≤ 4) :
    ∃ s', drawGeometry junk file s =
      some (s', [⟨.floor, .square, (-2, 0, 0), 0⟩,
        ⟨.player, .model2, (-1, s.objy, s.objz), 1⟩]) := by
  have hpos : 0 < file.length := by
    cases file with
    | nil => simp [tokens] at ht
    | cons a l => simp
  have harr0 : mapArrayAfter junk file 0 = 1 := by
    simp [mapArrayAfter, ht]
  have harr2 : arrayAt (mapArrayAfter junk file) 2 = 4 := by
    simp [arrayAt, mapArrayAfter, ht]
  have hn : loopBound junk file = 1 := by
    unfold loopBound
    rw [harr0]
    rfl
  have hord : cellOrder 1 = [(0, 0)] := by decide
  have hcode : mapAt (mapAfter (mapArrayAfter junk file) file.length s.map)
      ((0 : Nat) : Int) ((0 : Nat) : Int) = some 4 := by
    rw [mapAt_of_inside _ _ _ (by decide)]
    simp [mapAfter, hpos, harr2]
  rw [drawGeometry_eq, if_pos ⟨by rw [ht]; decide, hl⟩, hn, drawCells_eq, hord]
  simp only [List.foldlM_cons, List.foldlM_nil, Option.bind_eq_bind]
  rw [drawCell_of_code 0 0 _ 4 hcode]
  simp [drawPlayer, drawFloor]

/-- Witness of C11 (amended): the file `1 1 / 4` and the start state. -/
theorem spawn_only_map_draws_floor_and_player_witness :
    ∃ s', drawGeometry zeroArray fileSpawnOnly State.initial =
      some (s', [⟨.floor, .square, (-2, 0, 0), 0⟩,
        ⟨.player, .model2, (-1, State.initial.objy, State.initial.objz), 1⟩]) :=
  spawn_only_map_draws_floor_and_player zeroArray fileSpawnOnly State.initial
    (by decide) (by decide)


/-- C15 (counterexample): the map description `3 3 / 0 2 0 / 0 4 0 / 5 0` declares 9 cells
and lists 8; the call of `drawGeometry` that loads it does not fail: it returns the frame
drawn from the map filled so far, tiles for all 9 cells included. -/
theorem short_map_load_does_not_fail :
    (tokens fileShort).length = 2 + 8 ∧
    (drawGeometry zeroArray fileShort State.initial).map (fun r => r.2)
      = some [⟨.floor, .square, (-2, 0, 0), 0⟩,
          ⟨.floor, .square, (-2, 1, 0), 0⟩, ⟨.wall, .square, (-1, 1, 0), 1⟩,
          ⟨.floor, .square, (-2, 2, 0), 0⟩,
          ⟨.floor, .square, (-2, 0, 1), 0⟩,
          ⟨.floor, .square, (-2, 1, 1), 0⟩, ⟨.key, .model1, (-1, 1, 1), 2⟩,
          ⟨.floor, .square, (-2, 2, 1), 0⟩,
          ⟨.floor, .square, (-2, 0, 2), 0⟩, ⟨.floor, .square, (-2, 1, 2), 0⟩,
          ⟨.floor, .square, (-2, 2, 2), 0⟩] := by
  refine ⟨by decide, by decide!⟩

/-- C15 (amended): the load has no format check.  The read and fill loops are defined
exactly when the file holds at most 26 integers on at most 4 lines, whatever the declared
dimensions, the number of cell integers and the cell codes; a description `3 3` with only
8 cell integers is loaded and all 9 cells are drawn, for every choice of the 8 integers;
and a cell whose code is outside `2 .. 6` is drawn as its floor tile alone. -/
theorem load_has_no_format_check :
    (∀ (junk : MapArray) (file : MapFile) (map : Grid),
      (∃ arr r m nl, readMapArray junk file = some (arr, r) ∧
        fillMap arr file.length map = some (m, nl)) ↔
      ((tokens file).length ≤ 26 ∧ file.length ≤ 4)) ∧
    (∀ (junk : MapArray) (s : State) (a b c d e f g h : Int),
      ∃ s' out, drawGeometry junk [[3, 3], [a, b, c], [d, e, f], [g, h]] s = some (s', out) ∧
        out.filter (fun x => x.kind = .floor) =
          (cellOrder 3).map (fun p => (⟨.floor, .square, (-2, p.2, p.1), 0⟩ : Draw))) ∧
    (∀ (i j : Nat) (f : Frame) (c : Int), mapAt f.st.map i j = some c → (c < 2 ∨ 6 < c) →
      drawCell i j f = some (drawFloor i j f)) := by
  refine ⟨?_, ?_, ?_⟩
  · intro junk file map
    rw [readMapArray_eq]
    constructor
    · rintro ⟨arr, r, m, nl, h1, h2⟩
      rw [fillMap_eq] at h2
      split_ifs at h1 with ha
      split_ifs at h2 with hb
      exact ⟨ha, hb⟩
    · rintro ⟨ha, hb⟩
      refine ⟨_, _, mapAfter (mapArrayAfter junk file) file.length map, 2 + 5 * file.length,
        if_pos ha, ?_⟩
      rw [fillMap_eq, if_pos hb]
  · intro junk s a b c d e f g h
    have hn : loopBound junk [[3, 3], [a, b, c], [d, e, f], [g, h]] = 3 := by
      simp [loopBound, mapArrayAfter, tokens]
    obtain ⟨s', out, hd⟩ := drawGeometry_defined junk [[3, 3], [a, b, c], [d, e, f], [g, h]] s
      (by simp [tokens]) (by simp) (by rw [hn])
    refine ⟨s', out, hd, ?_⟩
    rw [drawGeometry_floors junk _ s s' out hd, hn]
  · intro i j f c hc hout
    rw [drawCell_of_code i j f c hc, if_neg (by omega), if_neg (by omega), if_neg (by omega),
      if_neg (by omega)]

/-- Witness of C15 (amended): the file `fileShort`, and a cell of code 7. -/
theorem load_has_no_format_check_witness :
    (∃ arr r m nl, readMapArray zeroArray fileShort = some (arr, r) ∧
      fillMap arr fileShort.length State.initial.map = some (m, nl)) ∧
    drawCell 0 0 ⟨{ State.initial with map := fun _ _ => 7 }, 0, []⟩
      = some (drawFloor 0 0 ⟨{ State.initial with map := fun _ _ => 7 }, 0, []⟩) :=
  ⟨(load_has_no_format_check.1 zeroArray fileShort State.initial.map).mpr
      ⟨by decide, by decide⟩,
    load_has_no_format_check.2.2 0 0 ⟨{ State.initial with map := fun _ _ => 7 }, 0, []⟩ 7
      (by decide) (Or.inr (by decide))⟩


/-- C14 (counterexample): the description `1 2 / 4 5` declares one row of two cells, yet
the frame visits the cell `(0, 0)` alone (one floor tile, the player, no key draw); the
description `2 2 / 0 4 / 5 0` lists 5 for the cell `(1, 0)`, yet the code dispatched on
there is `mapArray[7]`, which the file does not reach, and no key draw is issued. -/
theorem declared_grid_is_not_the_visited_grid :
    (drawGeometry zeroArray fileOneByTwo State.initial).map (fun r => r.2)
      = some [⟨.floor, .square, (-2, 0, 0), 0⟩, ⟨.player, .model2, (-1, 0, 0), 1⟩] ∧
    (tokens fileTwoByTwo = [2, 2, 0, 4, 5, 0] ∧
      loadedCode zeroArray fileTwoByTwo State.initial.map (1, 0) = zeroArray 7 ∧
      (drawGeometry zeroArray fileTwoByTwo State.initial).map (fun r => r.2)
        = some [⟨.floor, .square, (-2, 0, 0), 0⟩,
            ⟨.floor, .square, (-2, 1, 0), 0⟩, ⟨.player, .model2, (-1, 1, 0), 1⟩,
            ⟨.floor, .square, (-2, 0, 1), 0⟩, ⟨.floor, .square, (-2, 1, 1), 0⟩]) := by
  refine ⟨by decide!, by decide, by decide, by decide!⟩

/-- C14 (amended): for every map description of at most 26 integers on at most 4 lines
whose first integer `N` is at most 5, one call of `drawGeometry` is the loop of cell bodies
over `cellOrder N`: it dispatches on the cells `(row, col)` with `row < N` and `col < N`,
each once, rows outermost (the second declared number is not read), and the code used at
`(row, col)` is `loadedCode`, which for a row below the number of lines is the integer of
the file at position `2 + 5 * row + col` when the file reaches that position.  The floor
tiles of the frame are those of `cellOrder N`, in that order. -/
theorem cells_dispatched_square_stride_five (junk : MapArray) (file : MapFile) (s : State)
    (h1 : (tokens file).length ≤ 26) (h2 : file.length ≤ 4)
    (h3 : loopBound junk file ≤ 5) :
    drawGeometry junk file s =
      ((cellOrder (loopBound junk file)).foldlM
        (fun g p => cellBody (loadedCode junk file s.map p) p.1 p.2 g)
        ⟨{ s with map := mapAfter (mapArrayAfter junk file) file.length s.map }, 0, []⟩).map
        (fun f => (f.st, f.out)) ∧
    (0 < (tokens file).length → loopBound junk file = ((tokens file).getD 0 0).toNat) ∧
    (∀ i j, (i, j) ∈ cellOrder (loopBound junk file) ↔
      i < loopBound junk file ∧ j < loopBound junk file) ∧
    (cellOrder (loopBound junk file)).Pairwise
      (fun p q => p.1 < q.1 ∨ (p.1 = q.1 ∧ p.2 < q.2)) ∧
    (∀ p : Nat × Nat, p.1 < file.length → 2 + 5 * p.1 + p.2 < (tokens file).length →
      loadedCode junk file s.map p = (tokens file).getD (2 + 5 * p.1 + p.2) 0) ∧
    (∀ s' out, drawGeometry junk file s = some (s', out) →
      out.filter (fun d => d.kind = .floor) =
        (cellOrder (loopBound junk file)).map
          (fun p => (⟨.floor, .square, (-2, p.2, p.1), 0⟩ : Draw))) := by
  refine ⟨?_, ?_, mem_cellOrder _, cellOrder_pairwise _, ?_, ?_⟩
  · rw [drawGeometry_eq, if_pos ⟨h1, h2⟩, drawCells_eq]
    rw [cells_eq_bodies (mapAfter (mapArrayAfter junk file) file.length s.map)
      (loadedCode junk file s.map) _ ?_ _ rfl]
    intro p hp
    have hlt := (mem_cellOrder (loopBound junk file) p.1 p.2).mp hp
    exact mapAt_mapAfter junk file s.map p (by omega) (by omega)
  · intro hpos
    unfold loopBound mapArrayAfter
    simp only [Fin.val_zero]
    rw [if_pos hpos]
  · intro p hp hk
    unfold loadedCode
    rw [if_pos hp, arrayAt_mapArrayAfter junk file _ hk (by omega)]
  · intro s' out h
    exact drawGeometry_floors junk file s s' out h

/-- Witness of C14 (amended): the file `2 2 / 0 0 0 0 0 / 4 5 0 0 0`, whose rows are 5
integers wide: the code used at `(1, 1)` is the listed 5, and the frame tiles the four
cells in row-major order. -/
theorem cells_dispatched_square_stride_five_witness :
    loopBound zeroArray fileSpawnKey = 2 ∧
    cellOrder (loopBound zeroArray fileSpawnKey) = [(0, 0), (0, 1), (1, 0), (1, 1)] ∧
    loadedCode zeroArray fileSpawnKey State.initial.map (1, 1) = 5 ∧
    (∃ s' out, drawGeometry zeroArray fileSpawnKey State.initial = some (s', out) ∧
      out.filter (fun d => d.kind = .floor) =
        [⟨.floor, .square, (-2, 0, 0), 0⟩, ⟨.floor, .square, (-2, 1, 0), 0⟩,
          ⟨.floor, .square, (-2, 0, 1), 0⟩, ⟨.floor, .square, (-2, 1, 1), 0⟩]) := by
  have h := cells_dispatched_square_stride_five zeroArray fileSpawnKey State.initial
    (by decide) (by decide) (by decide)
  have hn : loopBound zeroArray fileSpawnKey = 2 := by decide
  refine ⟨hn, by decide, ?_, ?_⟩
  · rw [h.2.2.2.2.1 (1, 1) (by decide) (by decide)]
    decide
  · have hs : (drawGeometry zeroArray fileSpawnKey State.initial).isSome = true := by
      decide!
    obtain ⟨r, hr⟩ := Option.isSome_iff_exists.mp hs
    refine ⟨r.1, r.2, hr, ?_⟩
    rw [h.2.2.2.2.2 r.1 r.2 hr, hn]
    simp [cellOrder, List.range_succ]


/-- C18: the recorded key and door positions start at `(0, 0)` with both flags false, and
the spawn branch tests against whatever is recorded.  For every defined frame that starts
with `keyy = keyz = doory = doorz = 0`, whose visited cells hold a spawn cell `(i, j)` with
the truncated player coordinates `j + objy`, `i + objz` equal to `(0, 0)` and hold no door
or key cell, the frame leaves `collideKey` and `collideDoor` true, after which `isWalkable`
returns true at every position.  Such a frame is defined whenever the file holds at most
26 integers on at most 4 lines, its first number is at most 5 and the visited cells hold at
most 9 walls. -/
theorem spawn_at_origin_sets_both_flags :
    (State.initial.keyy = 0 ∧ State.initial.keyz = 0 ∧ State.initial.doory = 0 ∧
      State.initial.doorz = 0 ∧ State.initial.collideKey = false ∧
      State.initial.collideDoor = false) ∧
    (∀ (junk : MapArray) (file : MapFile) (s s' : State) (out : List Draw),
      s.keyy = 0 → s.keyz = 0 → s.doory = 0 → s.doorz = 0 →
      drawGeometry junk file s = some (s', out) →
      (∃ i j, i < loopBound junk file ∧ j < loopBound junk file ∧
        loadedCode junk file s.map (i, j) = 4 ∧
        truncToInt (j + s.objy) = 0 ∧ truncToInt (i + s.objz) = 0) →
      (∀ i j, i < loopBound junk file → j < loopBound junk file →
        loadedCode junk file s.map (i, j) ≠ 3 ∧ loadedCode junk file s.map (i, j) ≠ 5 ∧
        loadedCode junk file s.map (i, j) ≠ 6) →
      s'.collideKey = true ∧ s'.collideDoor = true ∧
        ∀ x y : ℚ, isWalkable s' x y = some true) ∧
    (∀ (junk : MapArray) (file : MapFile) (s : State),
      (tokens file).length ≤ 26 → file.length ≤ 4 → loopBound junk file ≤ 5 →
      ((cellOrder (loopBound junk file)).filter
        (fun p => decide (loadedCode junk file s.map p = 2))).length ≤ 9 →
      ∃ s' out, drawGeometry junk file s = some (s', out)) := by
  refine ⟨⟨rfl, rfl, rfl, rfl, rfl, rfl⟩, ?_, drawGeometry_defined_of_walls⟩
  intro junk file s s' out hky hkz hdy hdz h hspawn hnone
  obtain ⟨i0, j0, hi0, hj0, hcode0, htx, hty⟩ := hspawn
  obtain ⟨_, f', hf, hs', _⟩ := drawGeometry_some junk file s s' out h
  -- every visited cell lies inside `map[5][5]`: the frame is defined
  have hn5 : ∀ p ∈ cellOrder (loopBound junk file), ∀ g g' : Frame,
      drawCell p.1 p.2 g = some g' → p.1 < 5 ∧ p.2 < 5 := by
    intro p _ g g' hg
    by_contra hcon
    have hout : mapAt g.st.map p.1 p.2 = none := mapAt_of_outside _ _ _ (by omega)
    rw [drawCell_of_outside p.1 p.2 g hout] at hg
    cases hg
  obtain ⟨l1, l2, hl⟩ := List.append_of_mem ((mem_cellOrder _ i0 j0).mpr ⟨hi0, hj0⟩)
  rw [hl] at hf
  obtain ⟨f1, f2, hf1, hcell, hf2⟩ := foldlM_option_split _ l1 l2 (i0, j0) _ f' hf
  -- before the spawn cell the recorded positions stay at zero
  have hK := foldlM_option_preserves_mem
    (fun g : Frame => g.st.map = mapAfter (mapArrayAfter junk file) file.length s.map ∧
      g.st.objy = s.objy ∧ g.st.objz = s.objz ∧
      g.st.keyy = 0 ∧ g.st.keyz = 0 ∧ g.st.doory = 0 ∧ g.st.doorz = 0)
    (fun g p => drawCell p.1 p.2 g) l1
    (by
      intro g p g' hp hg hstep
      have hpm : p ∈ cellOrder (loopBound junk file) := by
        rw [hl]
        exact List.mem_append_left _ hp
      have hlt := (mem_cellOrder _ p.1 p.2).mp hpm
      have h5 := hn5 p hpm g g' hstep
      have hc : mapAt g.st.map p.1 p.2 = some (loadedCode junk file s.map p) := by
        rw [hg.1]
        exact mapAt_mapAfter junk file s.map p h5.1 h5.2
      obtain ⟨n3, n5, n6⟩ := hnone p.1 p.2 hlt.1 hlt.2
      obtain ⟨e1, e2, e3⟩ := drawCell_marks p.1 p.2 g g' _ hc hstep
      obtain ⟨e4, e5, e6, e7⟩ := e3 n3 n5 n6
      refine ⟨?_, ?_, ?_, ?_, ?_, ?_, ?_⟩
      · rw [(drawCell_sound p.1 p.2 g g' hstep).2.2.1]; exact hg.1
      · rw [e1]; exact hg.2.1
      · rw [e2]; exact hg.2.2.1
      · rw [e4]; exact hg.2.2.2.1
      · rw [e5]; exact hg.2.2.2.2.1
      · rw [e6]; exact hg.2.2.2.2.2.1
      · rw [e7]; exact hg.2.2.2.2.2.2)
    _ f1 ⟨rfl, rfl, rfl, hky, hkz, hdy, hdz⟩ hf1
  obtain ⟨hm1, hy1, hz1, k1, k2, k3, k4⟩ := hK
  -- the spawn cell raises both flags
  have h5 := hn5 (i0, j0) ((mem_cellOrder _ i0 j0).mpr ⟨hi0, hj0⟩) f1 f2 hcell
  have hc0 : mapAt f1.st.map i0 j0 = some 4 := by
    rw [hm1, ← hcode0]
    exact mapAt_mapAfter junk file s.map (i0, j0) h5.1 h5.2
  rw [drawCell_of_code i0 j0 f1 4 hc0] at hcell
  simp only [show ¬ ((4 : Int) = 2) by decide, show ¬ ((4 : Int) = 3) by decide,
    if_false, if_true, Option.some.injEq] at hcell
  have hzero : truncToInt (0 : ℚ) = 0 := by decide!
  obtain ⟨p1, p2, _, _⟩ := drawPlayer_spec i0 j0 (drawFloor i0 j0 f1)
  have hflags2 : f2.st.collideKey = true ∧ f2.st.collideDoor = true := by
    rw [← hcell]
    constructor
    · refine p1.mpr (Or.inr ((distanceTestLe_iff_trunc_eq _ _ _ _).mpr ?_))
      show truncToInt (j0 + f1.st.objy) = truncToInt f1.st.keyy ∧
        truncToInt (i0 + f1.st.objz) = truncToInt f1.st.keyz
      rw [hy1, hz1, k1, k2, htx, hty, hzero]
      exact ⟨rfl, rfl⟩
    · refine p2.mpr (Or.inr ((distanceTestLe_iff_trunc_eq _ _ _ _).mpr ?_))
      show truncToInt (j0 + f1.st.objy) = truncToInt f1.st.doory ∧
        truncToInt (i0 + f1.st.objz) = truncToInt f1.st.doorz
      rw [hy1, hz1, k3, k4, htx, hty, hzero]
      exact ⟨rfl, rfl⟩
  -- the remaining cells keep them
  have hrest : f'.st.collideKey = true ∧ f'.st.collideDoor = true :=
    foldlM_option_preserves
    (fun g : Frame => g.st.collideKey = true ∧ g.st.collideDoor = true)
    (fun g p => drawCell p.1 p.2 g)
    (fun g p g' hg hstep =>
      ⟨(drawCell_sound p.1 p.2 g g' hstep).1 hg.1,
        (drawCell_sound p.1 p.2 g g' hstep).2.1 hg.2⟩)
    l2 f2 f' hflags2 hf2
  rw [hs'] at hrest
  refine ⟨hrest.1, hrest.2, ?_⟩
  intro x y
  unfold isWalkable
  rw [if_pos hrest.1]

/-- Witness of C18: the map description `1 1 / 4` drawn from the start state. -/
theorem spawn_at_origin_sets_both_flags_witness :
    ∃ s' out, drawGeometry zeroArray fileSpawnOnly State.initial = some (s', out) ∧
      s'.collideKey = true ∧ s'.collideDoor = true ∧
      ∀ x y : ℚ, isWalkable s' x y = some true := by
  obtain ⟨s', out, hr⟩ := spawn_at_origin_sets_both_flags.2.2 zeroArray fileSpawnOnly
    State.initial (by decide) (by decide) (by decide) (by decide)
  have hn : loopBound zeroArray fileSpawnOnly = 1 := by decide
  refine ⟨s', out, hr, spawn_at_origin_sets_both_flags.2.1 zeroArray fileSpawnOnly
    State.initial s' out rfl rfl rfl rfl hr ⟨0, 0, by decide, by decide, by decide,
      by decide!, by decide!⟩ ?_⟩
  intro i j hi hj
  rw [hn] at hi hj
  have hi0 : i = 0 := by omega
  have hj0 : j = 0 := by omega
  subst hi0
  subst hj0
  decide

/-- Witness of C16: the truncated points `(0, 1)` and `(1, 1)` are at distance at least 1,
so the test fails for the player at `(24/25, 1)` and the key cell `(1, 1)`. -/
theorem distanceTest_le_iff_same_truncated_cell_witness :
    1 ≤ Real.sqrt ((distanceTestSq 0 1 1 1 : ℤ) : ℝ) ∧
    ¬ (distanceTestLe (24 / 25) 1 1 1 = true) :=
  ⟨(distanceTest_le_iff_same_truncated_cell.1 0 1 1 1).2 (by decide),
    fun h => absurd ((distanceTest_le_iff_same_truncated_cell.2.1 (24 / 25) 1 1 1).mp h)
      (by decide!)⟩


end MultiObjectTexture
